import Mathlib

/-!
Verification development for the CharitiesCommissionEnrichment backend.

This file gives a shallow embedding, in Lean 4, of the entity-resolution
pipeline (`app/services/entity_resolver.py`), the Charity Commission data
parsing and charity-number extraction (`app/services/charity_commission.py`),
and the recursive ownership-tree builder (`app/services/ownership_builder.py`),
together with theorems settling the frozen claims about that code.

Modelling conventions:
* Database rows (Entity, EntityResolution, EntityOwnership, EntityBatch) are
  Lean structures; tables are Lean lists; SQLAlchemy get-or-create queries are
  `List.find?` on the same predicates the code uses.
* External calls (the Charity Commission HTTP client and the OpenAI client)
  are oracle functions bundled in an environment structure.  Calls whose
  failures the Python code lets propagate are `Except String`-valued; the
  ownership builder wraps each of its external calls in a try/except that
  logs and continues, so its environment is total.
* Python floats (confidence scores, similarity ratios) are modelled as `Rat`;
  `difflib.SequenceMatcher.ratio`, a Python standard-library function external
  to this repository, is an oracle `calculate_similarity` in the environment.
* `datetime` values are modelled as opaque raw strings or as a Boolean
  "was stamped" flag (`resolved_at`), because no claim depends on time.
* Auto-generated primary keys are modelled with explicit counters.
-/

namespace CCE

/-- A value from the uploaded row's JSON bag: the resolver only inspects
whether a value `isinstance(value, str)`, so everything else collapses. -/
inductive PyVal where
  | str (s : String)
  | other
deriving DecidableEq

/-- Python truthiness of an optional string: `None` and `""` are falsy. -/
def optTruthy : Option String → Bool
  | none => false
  | some s => !(s == "")

/-- Python `a or b` on two optional strings (an empty string is falsy). -/
def pyOrStr (a b : Option String) : Option String :=
  match a with
  | some s => if s == "" then b else some s
  | none => b

/-- `EntityType` from `app/models/entity.py`. -/
inductive EntityType where
  | charity
  | company
  | trust
  | cio
  | unknown
deriving DecidableEq

/-- `ResolutionStatus` from `app/models/entity.py`. -/
inductive ResolutionStatus where
  | pending
  | matched
  | multiple_matches
  | no_match
  | manual_review
  | confirmed
  | rejected
deriving DecidableEq

/-- `BatchStatus` from `app/models/entity.py` (`partial` is a Lean keyword, so
that constructor is spelled `partialRes`). -/
inductive BatchStatus where
  | uploaded
  | processing
  | completed
  | failed
  | partialRes
deriving DecidableEq

/-! ## charity_commission.py: extract_charity_number

`CharityCommissionService.extract_charity_number` runs three `re.search`
patterns in order over the text, case-insensitively, returning
`match.group(1).upper()` of the first pattern that matches anywhere:
`\b(\d{6,8})\b`, `\b(SC\d{5,6})\b`, `\b(NI\d{5,6})\b`.
The embedding below implements leftmost search with greedy counted
repetition and `\b` word boundaries over the character list of the text. -/

/-- `\w` of Python's `re` restricted to ASCII-style word characters. -/
def isWordChar (c : Char) : Bool := c.isAlphanum || c == '_'

/-- Split off exactly `n` leading characters, if there are that many. -/
def takeExact : List Char → Nat → Option (List Char × List Char)
  | rest, 0 => some ([], rest)
  | [], _ + 1 => none
  | c :: rest, n + 1 =>
    match takeExact rest n with
    | some p => some (c :: p.1, p.2)
    | none => none

/-- A `\b` holds after the match iff the remainder starts with a non-word
character (or the text ends). -/
def boundaryAfter : List Char → Bool
  | [] => true
  | c :: _ => !isWordChar c

/-- Match exactly `len` digits here followed by a word boundary. -/
def digitsMatchLen (cs : List Char) (len : Nat) : Option String :=
  match takeExact cs len with
  | none => none
  | some (run, rest) =>
    if run.all (fun c => c.isDigit) && boundaryAfter rest then
      some (String.mk run)
    else none

/-- Greedy `\d{6,8}` at a fixed start: try 8, then 7, then 6 digits. -/
def digitsMatchAt (cs : List Char) : Option String :=
  match digitsMatchLen cs 8 with
  | some s => some s
  | none =>
    match digitsMatchLen cs 7 with
    | some s => some s
    | none => digitsMatchLen cs 6

/-- Case-insensitive two-letter prefix (SC or NI) followed by greedy
`\d{5,6}` and a closing word boundary; the captured group is upper-cased. -/
def prefixedMatchAt (p1 p2 : Char) (cs : List Char) : Option String :=
  match cs with
  | a :: b :: rest =>
    if a.toUpper == p1 && b.toUpper == p2 then
      match digitsMatchLen rest 6 with
      | some s => some (String.mk [p1, p2] ++ s)
      | none =>
        match digitsMatchLen rest 5 with
        | some s => some (String.mk [p1, p2] ++ s)
        | none => none
    else none
  | _ => none

/-- Leftmost `re.search`: try the pattern at each position whose left side is
a word boundary (start of text or preceding non-word character).  Because all
three patterns begin with a word character, `\b` holds exactly there. -/
def scanPattern (tryAt : List Char → Option String) : Bool → List Char → Option String
  | _, [] => none
  | prevBoundary, c :: rest =>
    match (if prevBoundary then tryAt (c :: rest) else none) with
    | some s => some s
    | none => scanPattern tryAt (!isWordChar c) rest

/-- `CharityCommissionService.extract_charity_number`. -/
def extract_charity_number (text : String) : Option String :=
  match scanPattern digitsMatchAt true text.data with
  | some s => some s
  | none =>
    match scanPattern (prefixedMatchAt 'S' 'C') true text.data with
    | some s => some s
    | none => scanPattern (prefixedMatchAt 'N' 'I') true text.data

example : extract_charity_number "Charity no 220949 (England)" = some "220949" := by decide

example : extract_charity_number "sc045678 Scotland" = some "SC045678" := by decide

example : extract_charity_number "zzz" = none := by decide

example : extract_charity_number "123456789" = none := by decide

/-! ## Raw Charity Commission API payloads and parse_charity_data -/

/-- The `contact` sub-object of a raw charity payload. -/
structure ContactRec where
  email : Option String := none
  phone : Option String := none
  web : Option String := none
  addressLine1 : Option String := none
  addressLine2 : Option String := none
  addressLine3 : Option String := none
  addressLine4 : Option String := none
  postcode : Option String := none
deriving DecidableEq

/-- One record of the `accounts` list of a raw charity payload. -/
structure AccountRec where
  totalGrossIncome : Option Rat := none
  totalGrossExpenditure : Option Rat := none
  financialYearEnd : Option String := none
deriving DecidableEq

/-- One record of the `trustees` list of a raw charity payload. -/
structure TrusteeRaw where
  trusteeName : Option String := none
  trusteeId : Option Nat := none
deriving DecidableEq

/-- One record of the `subsidiaries` list of a raw charity payload
(also the element type returned by `get_charity_subsidiaries`). -/
structure SubsidiaryRaw where
  subsidiaryName : Option String := none
  companyNumber : Option String := none
deriving DecidableEq

/-- A raw charity payload as consumed by `parse_charity_data` and
`search_candidates`: exactly the keys the services read.  Date fields are
kept as raw strings (see the header note). -/
structure RawCharity where
  charityNumber : Option String := none
  registeredCharityNumber : Option String := none
  charityName : Option String := none
  name : Option String := none
  registrationStatus : Option String := none
  registrationDate : Option String := none
  removalDate : Option String := none
  activities : Option String := none
  contact : Option ContactRec := none
  accounts : List AccountRec := []
  trustees : List TrusteeRaw := []
  subsidiaries : List SubsidiaryRaw := []
deriving DecidableEq

/-- A parsed trustee entry (`{"name": ..., "id": ...}`). -/
structure TrusteeParsed where
  name : Option String := none
  id : Option Nat := none
deriving DecidableEq

/-- A parsed subsidiary entry (`{"name": ..., "company_number": ...}`). -/
structure SubsidiaryParsed where
  name : Option String := none
  company_number : Option String := none
deriving DecidableEq

/-- The standardized dict produced by
`CharityCommissionService.parse_charity_data`. -/
structure ParsedCharity where
  charity_number : Option String := none
  name : Option String := none
  status : Option String := none
  registration_date : Option String := none
  removal_date : Option String := none
  activities : Option String := none
  contact_email : Option String := none
  contact_phone : Option String := none
  website : Option String := none
  address : Option String := none
  latest_income : Option Rat := none
  latest_expenditure : Option Rat := none
  financial_year_end : Option String := none
  trustees : List TrusteeParsed := []
  subsidiaries : List SubsidiaryParsed := []
deriving DecidableEq

/-- `CharityCommissionService.parse_charity_data`.  Date strings pass through
unparsed (the `datetime.fromisoformat` try/except is identity-or-drop and no
claim depends on it). -/
def parse_charity_data (data : RawCharity) : ParsedCharity :=
  let contact := data.contact.getD {}
  let address_parts :=
    (([contact.addressLine1, contact.addressLine2, contact.addressLine3,
       contact.addressLine4, contact.postcode].filterMap id).filter
      (fun s => s != ""))
  { charity_number := pyOrStr data.charityNumber data.registeredCharityNumber
    name := pyOrStr data.charityName data.name
    status := data.registrationStatus
    registration_date := data.registrationDate
    removal_date := data.removalDate
    activities := data.activities
    contact_email := contact.email
    contact_phone := contact.phone
    website := contact.web
    address := if address_parts.isEmpty then none
      else some (String.intercalate ", " address_parts)
    latest_income := (data.accounts.head?.map (·.totalGrossIncome)).join
    latest_expenditure := (data.accounts.head?.map (·.totalGrossExpenditure)).join
    financial_year_end := (data.accounts.head?.map (·.financialYearEnd)).join
    trustees := data.trustees.map (fun t => { name := t.trusteeName, id := t.trusteeId })
    subsidiaries := data.subsidiaries.map
      (fun s => { name := s.subsidiaryName, company_number := s.companyNumber }) }

/-! ## Database rows (app/models/entity.py) -/

/-- The `enriched_data` JSON bag: the keys the services write and read. -/
structure EnrichedData where
  ai_reasoning : Option String := none
  trustees : List TrusteeParsed := []
  subsidiaries : List SubsidiaryParsed := []
deriving DecidableEq

/-- An `Entity` row.  `resolved_at` is a Boolean "timestamp was stamped"
flag; ids are `Nat` (UUIDs modelled as counters). -/
structure Entity where
  id : Nat
  batch_id : Nat
  original_name : String
  original_data : List (String × PyVal) := []
  entity_type : Option EntityType := none
  resolved_name : Option String := none
  charity_number : Option String := none
  company_number : Option String := none
  charity_status : Option String := none
  charity_registration_date : Option String := none
  charity_removal_date : Option String := none
  charity_activities : Option String := none
  charity_contact_email : Option String := none
  charity_contact_phone : Option String := none
  charity_website : Option String := none
  charity_address : Option String := none
  latest_income : Option Rat := none
  latest_expenditure : Option Rat := none
  latest_financial_year_end : Option String := none
  resolution_status : ResolutionStatus := .pending
  resolution_confidence : Option Rat := none
  resolution_method : Option String := none
  resolved_at : Bool := false
  parent_entity_id : Option Nat := none
  ownership_level : Nat := 0
  enriched_data : Option EnrichedData := none
deriving DecidableEq

/-- An `EntityResolution` row (one persisted candidate match). -/
structure EntityResolution where
  id : Nat
  entity_id : Nat
  charity_number : String
  candidate_name : String
  candidate_data : Option RawCharity := none
  confidence_score : Rat
  match_method : String
  is_selected : Bool := false
deriving DecidableEq

/-- An `EntityOwnership` row (a directed owner -> owned edge). -/
structure EntityOwnership where
  owner_id : Nat
  owned_id : Nat
  ownership_type : String
  ownership_percentage : Option Rat := none
  relationship_description : Option String := none
  source : String
  verified : Bool := false
deriving DecidableEq

/-- An `EntityBatch` row: the fields `process_batch` touches. -/
structure EntityBatch where
  id : Nat
  status : BatchStatus := .uploaded
  total_records : Nat := 0
  processed_records : Nat := 0
  matched_records : Nat := 0
  failed_records : Nat := 0
  error_message : Option String := none
  processing_started : Bool := false
  processing_completed : Bool := false
deriving DecidableEq

/-! ## entity_resolver.py: the resolution pipeline -/

/-- One candidate dict as built inside `search_candidates`. -/
structure Candidate where
  charity_number : String
  name : String
  status : Option String := none
  similarity_score : Rat
  raw_data : RawCharity
deriving DecidableEq

/-- The JSON object the OpenAI chat call is asked to return
(`match_found`, `selected_index`, `confidence`, `reasoning`). -/
structure AiJson where
  match_found : Bool := false
  selected_index : Option Int := none
  confidence : Option Rat := none
  reasoning : Option String := none
deriving DecidableEq

/-- Oracles for the external collaborators of `EntityResolverService`:
the Charity Commission client, the stdlib similarity kernel and the
optional OpenAI client.
* `get_full_charity_details n` models `await get_full_charity_details(n)`:
  `.ok none` is the "not found" result, `.error` a raised exception (which
  the resolver does not catch).
* `search_charities term page_size` models
  `await search_charities(term, page_size=...)`, already unwrapped to the
  charities list; `.error` is a raised exception.
* `calculate_similarity` models
  `EntityResolverService.calculate_similarity` (a `SequenceMatcher.ratio`
  over `normalize_name`-ed inputs -- a deterministic Python-stdlib kernel
  treated as an oracle, since no claim depends on the ratio algorithm).
* `openai` is `None` exactly when no API key is configured; a call models
  the chat completion plus JSON parse, `.error` being a raised exception
  (caught inside `ai_resolve_entity`). -/
structure ResolveEnv where
  get_full_charity_details : String → Except String (Option RawCharity)
  search_charities : String → Nat → Except String (List RawCharity)
  calculate_similarity : String → String → Rat
  openai : Option (String → List Candidate → List (String × PyVal) → Except String AiJson)

/-- The ordering used by `candidates.sort(key=similarity, reverse=True)`. -/
def candGE (a b : Candidate) : Prop := b.similarity_score ≤ a.similarity_score

instance : DecidableRel candGE := fun a b =>
  inferInstanceAs (Decidable (b.similarity_score ≤ a.similarity_score))

instance : IsTotal Candidate candGE := ⟨fun a b => le_total b.similarity_score a.similarity_score⟩

instance : IsTrans Candidate candGE := ⟨fun _ _ _ h1 h2 => le_trans h2 h1⟩

/-- `EntityResolverService.search_candidates`.  The whole body sits in a
try/except that logs and falls through to `return candidates[:max_results]`,
so a raised search is swallowed into an empty candidate list.  Python's
stable `list.sort` is modelled by Mathlib's stable `insertionSort`. -/
def search_candidates (env : ResolveEnv) (entity_name : String) (max_results : Nat) : List Candidate :=
  match env.search_charities entity_name (max_results * 2) with
  | .error _ => []
  | .ok charities =>
    let cands := (charities.take max_results).map (fun charity =>
      let charity_name := (pyOrStr charity.charityName charity.name).getD ""
      let charity_number := (pyOrStr charity.charityNumber charity.registeredCharityNumber).getD ""
      { charity_number := charity_number
        name := charity_name
        status := charity.registrationStatus
        similarity_score := env.calculate_similarity entity_name charity_name
        raw_data := charity : Candidate })
    (List.insertionSort candGE cands).take max_results

/-- `EntityResolverService.ai_resolve_entity`: returns
`(charity_number, confidence, reasoning)` or `none`; every failure of the
OpenAI call is caught and becomes `none`.  Note Python's truthiness check
`if result.get("match_found") and result.get("selected_index")` makes a
selected index of `0` falsy. -/
def ai_resolve_entity (env : ResolveEnv) (entity_name : String)
    (candidates : List Candidate) (original_data : List (String × PyVal)) :
    Option (String × Rat × String) :=
  match env.openai with
  | none => none
  | some client =>
    if candidates.isEmpty then none
    else
      match client entity_name candidates original_data with
      | .error _ => none
      | .ok result =>
        match result.selected_index with
        | none => none
        | some i =>
          if result.match_found ∧ i ≠ 0 then
            let idx : Int := i - 1
            if 0 ≤ idx ∧ idx < candidates.length then
              match candidates[idx.toNat]? with
              | some c =>
                some (c.charity_number, result.confidence.getD (mkRat 4 5),
                  result.reasoning.getD "AI matched")
              | none => none
            else none
          else none

/-- `EntityResolverService._update_entity_from_charity`: copy the parsed
registry fields onto the entity, set `matched` with the given method and
confidence, stamp `resolved_at`, and store trustees/subsidiaries into
`enriched_data`. -/
def update_entity_from_charity (entity : Entity) (charity_data : ParsedCharity)
    (method : String) (confidence : Rat) : Entity :=
  { entity with
    entity_type := some .charity
    resolved_name := charity_data.name
    charity_number := charity_data.charity_number
    charity_status := charity_data.status
    charity_registration_date := charity_data.registration_date
    charity_removal_date := charity_data.removal_date
    charity_activities := charity_data.activities
    charity_contact_email := charity_data.contact_email
    charity_contact_phone := charity_data.contact_phone
    charity_website := charity_data.website
    charity_address := charity_data.address
    latest_income := charity_data.latest_income
    latest_expenditure := charity_data.latest_expenditure
    latest_financial_year_end := charity_data.financial_year_end
    resolution_status := .matched
    resolution_confidence := some confidence
    resolution_method := some method
    resolved_at := true
    enriched_data :=
      let ed := entity.enriched_data.getD {}
      some { ed with
        trustees := charity_data.trustees
        subsidiaries := charity_data.subsidiaries } }

/-- The `EntityResolution` rows of the session, with the counter modelling
database-generated primary keys. -/
structure ResDb where
  resolutions : List EntityResolution := []
  next_resolution_id : Nat := 0
deriving DecidableEq

/-- Append one `EntityResolution` row per candidate
(`for candidate in candidates: self.db.add(EntityResolution(...))`). -/
def addCandidateRows (rdb : ResDb) (entityId : Nat) (candidates : List Candidate) : ResDb :=
  candidates.foldl (fun acc c =>
    { resolutions := acc.resolutions ++
        [{ id := acc.next_resolution_id
           entity_id := entityId
           charity_number := c.charity_number
           candidate_name := c.name
           candidate_data := some c.raw_data
           confidence_score := c.similarity_score
           match_method := "fuzzy_search" }]
      next_resolution_id := acc.next_resolution_id + 1 }) rdb

/-- The `UPDATE entity_resolutions SET is_selected=true WHERE entity_id=...
AND charity_number=...` statement issued after an exact or AI match. -/
def markSelected (rows : List EntityResolution) (entityId : Nat) (charityNumber : String) :
    List EntityResolution :=
  rows.map (fun r =>
    if r.entity_id = entityId ∧ r.charity_number = charityNumber then
      { r with is_selected := true }
    else r)

/-- Number-extraction scan of `resolve_entity` (lines 243-251): first
`original_name`, then each string value of `original_data` in order. -/
def extract_number_from_entity (entity : Entity) : Option String :=
  match extract_charity_number entity.original_name with
  | some n => some n
  | none =>
    if entity.original_data.isEmpty then none
    else
      entity.original_data.findSome? (fun kv =>
        match kv.2 with
        | .str s => extract_charity_number s
        | .other => none)

/-- Stages 5-6 of `resolve_entity`: optional AI disambiguation, then the
multiple/single-candidate fallback.  An error from the details fetch for the
AI-selected number propagates (it is outside `ai_resolve_entity`'s catch). -/
def resolve_entity_ai (env : ResolveEnv) (use_ai : Bool) (entity : Entity)
    (rdb : ResDb) (candidates : List Candidate) : ResDb × Except String Entity :=
  let fallback : ResDb × Except String Entity :=
    let best_candidate_score :=
      match candidates with
      | [] => none
      | c :: _ => some c.similarity_score
    let status := if candidates.length > 1 then ResolutionStatus.multiple_matches
      else ResolutionStatus.manual_review
    (rdb, .ok { entity with
      resolution_status := status
      resolution_confidence := best_candidate_score
      resolution_method := some "needs_review"
      resolved_at := true })
  if use_ai ∧ env.openai.isSome then
    match ai_resolve_entity env entity.original_name candidates entity.original_data with
    | some (charity_number, confidence, reasoning) =>
      match env.get_full_charity_details charity_number with
      | .error m => (rdb, .error m)
      | .ok (some raw) =>
        let e := update_entity_from_charity entity (parse_charity_data raw) "ai_match" confidence
        let ed := e.enriched_data.getD {}
        let e := { e with enriched_data := some { ed with ai_reasoning := some reasoning } }
        ({ rdb with resolutions := markSelected rdb.resolutions entity.id charity_number }, .ok e)
      | .ok none => fallback
    | none => fallback
  else fallback

/-- Stages 3-4 of `resolve_entity`: candidate search, audit-row writes, and
the similarity-0.95 exact-match shortcut. -/
def resolve_entity_search (env : ResolveEnv) (use_ai : Bool) (entity : Entity)
    (rdb : ResDb) : ResDb × Except String Entity :=
  let candidates := search_candidates env entity.original_name 5
  match candidates with
  | [] =>
    (rdb, .ok { entity with resolution_status := .no_match, resolved_at := true })
  | best :: _ =>
    let rdb := addCandidateRows rdb entity.id candidates
    if best.similarity_score ≥ mkRat 19 20 then
      match env.get_full_charity_details best.charity_number with
      | .error m => (rdb, .error m)
      | .ok (some raw) =>
        let e := update_entity_from_charity entity (parse_charity_data raw)
          "exact_match" best.similarity_score
        ({ rdb with resolutions := markSelected rdb.resolutions entity.id best.charity_number },
         .ok e)
      | .ok none => resolve_entity_ai env use_ai entity rdb candidates
    else resolve_entity_ai env use_ai entity rdb candidates

/-- Stage 2 of `resolve_entity`: charity-number extraction from the name and
the original data; a successful fetch applies with method
`number_extraction` and confidence 0.95, a not-found falls through. -/
def resolve_entity_extract (env : ResolveEnv) (use_ai : Bool) (entity : Entity)
    (rdb : ResDb) : ResDb × Except String Entity :=
  match extract_number_from_entity entity with
  | some extracted =>
    match env.get_full_charity_details extracted with
    | .error m => (rdb, .error m)
    | .ok (some raw) =>
      (rdb, .ok (update_entity_from_charity entity (parse_charity_data raw)
        "number_extraction" (mkRat 19 20)))
    | .ok none => resolve_entity_search env use_ai entity rdb
  | none => resolve_entity_search env use_ai entity rdb

/-- `EntityResolverService.resolve_entity`.  The result pairs the final
session rows (which persist even when an exception is raised later in the
pipeline) with either the updated entity or the propagated exception. -/
def resolve_entity (env : ResolveEnv) (use_ai : Bool) (entity : Entity)
    (rdb : ResDb) : ResDb × Except String Entity :=
  if optTruthy entity.charity_number then
    match env.get_full_charity_details (entity.charity_number.getD "") with
    | .error m => (rdb, .error m)
    | .ok (some raw) =>
      (rdb, .ok (update_entity_from_charity entity (parse_charity_data raw) "direct_lookup" 1))
    | .ok none => resolve_entity_extract env use_ai entity rdb
  else resolve_entity_extract env use_ai entity rdb

/-- `EntityResolverService.confirm_resolution`.  Takes the entity table and
session rows; returns the updated tables and entity, or the propagated
exception (`none` models the `ValueError` for an unknown entity id, raised
before any state change). -/
def confirm_resolution (env : ResolveEnv) (entities : List Entity) (rdb : ResDb)
    (entity_id : Nat) (resolution_id : Option Nat) (charity_number : Option String) :
    Option (ResDb × Except String Entity) :=
  match entities.find? (fun e => e.id == entity_id) with
  | none => none
  | some entity =>
    let found : Option EntityResolution :=
      match resolution_id with
      | none => none
      | some rid => rdb.resolutions.find? (fun r => r.id == rid)
    let charity_num :=
      match found with
      | some r => some r.charity_number
      | none => charity_number
    let rdb :=
      match found with
      | some r => { rdb with resolutions := rdb.resolutions.map (fun x =>
          if x.id = r.id then { x with is_selected := true } else x) }
      | none => rdb
    if optTruthy charity_num then
      match env.get_full_charity_details (charity_num.getD "") with
      | .error m => some (rdb, .error m)
      | .ok (some raw) =>
        let e := update_entity_from_charity entity (parse_charity_data raw) "manual_confirm" 1
        some (rdb, .ok { e with resolution_status := .confirmed })
      | .ok none => some (rdb, .ok entity)
    else
      some (rdb, .ok { entity with resolution_status := .rejected, resolved_at := true })

/-! ## entity_resolver.py: process_batch -/

/-- The statuses re-selected for processing
(`PENDING`, `MANUAL_REVIEW`, `MULTIPLE_MATCHES`). -/
def eligibleStatus (s : ResolutionStatus) : Bool :=
  s == .pending || s == .manual_review || s == .multiple_matches

/-- The in-loop state of `process_batch`'s per-record loop: the local
counters `processed`/`matched`/`failed`, the already-matched offset, the
mutated batch row, the session rows, and the final states of the processed
entities in processing order. -/
structure LoopState where
  batch : EntityBatch
  rdb : ResDb
  processed : Nat
  matched : Nat
  failed : Nat
  already_matched : Nat
  done : List Entity
deriving DecidableEq

/-- One iteration of the per-record loop: try `resolve_entity`; on success
bump `matched` when the record ended `MATCHED`; on any exception set the
record to `MANUAL_REVIEW` and bump `failed`; in the `finally` block bump
`processed` and write all three counters onto the batch row. -/
def process_record (env : ResolveEnv) (use_ai : Bool) (s : LoopState) (entity : Entity) :
    LoopState :=
  let step := resolve_entity env use_ai entity s.rdb
  let rdb := step.1
  let outcome :=
    match step.2 with
    | .ok e =>
      (e, (if e.resolution_status = ResolutionStatus.matched then s.matched + 1 else s.matched),
       s.failed)
    | .error _ =>
      ({ entity with resolution_status := .manual_review, resolved_at := true },
       s.matched, s.failed + 1)
  let processed := s.processed + 1
  { batch := { s.batch with
      processed_records := s.already_matched + processed
      matched_records := outcome.2.1
      failed_records := outcome.2.2 }
    rdb := rdb
    processed := processed
    matched := outcome.2.1
    failed := outcome.2.2
    already_matched := s.already_matched
    done := s.done ++ [outcome.1] }

/-- The per-record loop (`for entity in entities: ...`). -/
def run_records (env : ResolveEnv) (use_ai : Bool) (s : LoopState) (es : List Entity) :
    LoopState :=
  es.foldl (process_record env use_ai) s

/-- Final batch-status derivation of `process_batch` (lines 556-565). -/
def deriveBatchStatus (failed matched : Nat) : BatchStatus :=
  if failed > 0 ∧ matched = 0 then .failed
  else if failed > 0 then .partialRes
  else .completed

/-- The observable outcome of one `process_batch` run: the final batch row,
the final states of the processed entities (in order), the final session
rows, and whether an exception escaped (re-raised after the handler). -/
structure BatchRun where
  batch : EntityBatch
  entities : List Entity
  rdb : ResDb
  outcome : Except String Unit

/-- `EntityResolverService.process_batch`.
`db_fail` models a database error raised by the entity query at the top of
the `try` block (the only operation in the modelled body whose failure is
not already caught per-record); when it fires, the outer handler records the
message, sets the batch `FAILED` and re-raises.  A `none` result models the
`ValueError` for an unknown batch id, raised before the status is touched. -/
def process_batch (env : ResolveEnv) (db_fail : Option String)
    (batches : List EntityBatch) (all_entities : List Entity) (rdb : ResDb)
    (batch_id : Nat) (use_ai : Bool) : Option BatchRun :=
  match batches.find? (fun b => b.id == batch_id) with
  | none => none
  | some batch0 =>
    let batch := { batch0 with status := .processing, processing_started := true }
    let body : Except String BatchRun :=
      match db_fail with
      | some m => .error m
      | none =>
        let batch_entities := all_entities.filter (fun e => e.batch_id == batch_id)
        let entities := batch_entities.filter (fun e => eligibleStatus e.resolution_status)
        if entities.isEmpty then
          .ok { batch := { batch with status := .completed, processing_completed := true }
                entities := []
                rdb := rdb
                outcome := .ok () }
        else
          let batch := { batch with total_records := batch_entities.length }
          let already_matched :=
            batch_entities.countP (fun e => e.resolution_status == .matched)
          let s0 : LoopState :=
            { batch := batch, rdb := rdb, processed := 0, matched := already_matched
              failed := 0, already_matched := already_matched, done := [] }
          let s := run_records env use_ai s0 entities
          .ok { batch := { s.batch with
                  status := deriveBatchStatus s.failed s.matched
                  processing_completed := true }
                entities := s.done
                rdb := s.rdb
                outcome := .ok () }
    match body with
    | .ok r => some r
    | .error m =>
      some { batch := { batch with status := .failed, error_message := some m }
             entities := []
             rdb := rdb
             outcome := .error m }

/-! ## ownership_builder.py: the recursive tree builder

The builder wraps each of its external calls in try/except blocks that log
and continue, so its environment is total.  The recursion of
`_build_downward_tree` / `_build_upward_tree` is realized with an explicit
fuel argument for structural termination; the source's literal depth guard
`current_depth > max_depth` is checked verbatim, and the entry point passes
fuel `max_depth + 1`, which the guard always undercuts (the fuel-0 branch is
unreachable from `build_tree_for_entity`). -/

/-- The builder's `_visited_charities` / `_visited_companies` sets. -/
structure Visited where
  charities : List String := []
  companies : List String := []
deriving DecidableEq

/-- The persistent store the builder reads and writes: the `entities` and
`entity_ownerships` tables plus the id counter for created rows. -/
structure BuildDb where
  entities : List Entity := []
  edges : List EntityOwnership := []
  next_entity_id : Nat := 0
deriving DecidableEq

/-- Store plus traversal-scoped visited sets. -/
structure BuildState where
  db : BuildDb
  visited : Visited
deriving DecidableEq

/-- One node of the returned tree dict: entity id, the `ownership_type`
annotation, and the nested `children` (or `parents`) array. -/
inductive TreeNode where
  | mk (entity_id : Nat) (ownership_type : String) (sub : List TreeNode)

/-- Oracles for the builder's Charity Commission calls (total: the builder
catches and logs their failures). -/
structure TreeEnv where
  get_charity_subsidiaries : String → List SubsidiaryRaw
  search_charities : String → Nat → List RawCharity
  get_full_charity_details : String → Option RawCharity

/-- `OwnershipTreeBuilder._get_or_create_subsidiary_entity`: reuse an entity
of the same batch with the same company number when one is present (the
lookup is guarded by the company number's truthiness), else create a new
provisional company record at the given ownership level. -/
def get_or_create_subsidiary_entity (db : BuildDb) (parent : Entity) (name : String)
    (company_number : Option String) (level : Nat) : Entity × BuildDb :=
  let existing :=
    if optTruthy company_number then
      db.entities.find? (fun e =>
        e.batch_id == parent.batch_id && e.company_number == company_number)
    else none
  match existing with
  | some e => (e, db)
  | none =>
    let entity : Entity :=
      { id := db.next_entity_id
        batch_id := parent.batch_id
        original_name := name
        entity_type := some .company
        resolved_name := some name
        company_number := company_number
        parent_entity_id := some parent.id
        ownership_level := level
        resolution_status := .matched
        resolution_confidence := some 1
        resolution_method := some "subsidiary_discovery" }
    (entity, { db with
               entities := db.entities ++ [entity],
               next_entity_id := db.next_entity_id + 1 })

/-- `OwnershipTreeBuilder._get_or_create_related_charity`: reuse an entity
of the same batch with the same charity number, else fetch the full charity
details (`none` when the fetch finds nothing) and create the record. -/
def get_or_create_related_charity (env : TreeEnv) (db : BuildDb) (parent : Entity)
    (charity_number : String) (name : String) (level : Nat) : Option Entity × BuildDb :=
  match db.entities.find? (fun e =>
      e.batch_id == parent.batch_id && e.charity_number == some charity_number) with
  | some e => (some e, db)
  | none =>
    match env.get_full_charity_details charity_number with
    | none => (none, db)
    | some raw =>
      let parsed := parse_charity_data raw
      let entity : Entity :=
        { id := db.next_entity_id
          batch_id := parent.batch_id
          original_name := name
          entity_type := some .charity
          resolved_name := parsed.name
          charity_number := some charity_number
          charity_status := parsed.status
          charity_registration_date := parsed.registration_date
          charity_activities := parsed.activities
          charity_contact_email := parsed.contact_email
          charity_website := parsed.website
          charity_address := parsed.address
          latest_income := parsed.latest_income
          latest_expenditure := parsed.latest_expenditure
          latest_financial_year_end := parsed.financial_year_end
          parent_entity_id := some parent.id
          ownership_level := level
          resolution_status := .matched
          resolution_confidence := some 1
          resolution_method := some "related_discovery"
          enriched_data := some { trustees := parsed.trustees
                                  subsidiaries := parsed.subsidiaries } }
      (some entity, { db with
                      entities := db.entities ++ [entity],
                      next_entity_id := db.next_entity_id + 1 })

/-- `OwnershipTreeBuilder._create_ownership`: get-or-create an ownership
edge keyed on the `(owner_id, owned_id)` pair; an existing edge is returned
untouched, whatever the other arguments are. -/
def create_ownership (db : BuildDb) (owner_id owned_id : Nat) (ownership_type : String)
    (source : String) (description : Option String) (percentage : Option Rat) :
    EntityOwnership × BuildDb :=
  match db.edges.find? (fun o => o.owner_id == owner_id && o.owned_id == owned_id) with
  | some existing => (existing, db)
  | none =>
    let ownership : EntityOwnership :=
      { owner_id := owner_id
        owned_id := owned_id
        ownership_type := ownership_type
        ownership_percentage := percentage
        relationship_description := description
        source := source
        verified := true }
    (ownership, { db with edges := db.edges ++ [ownership] })

/-- The inner `for charity in charities` loop of the trustee section: the
first search hit with a truthy, unvisited charity number different from the
parent's, whose name equals the trustee name case-insensitively; the loop
`break`s after processing it. -/
def trustee_candidate (visited : Visited) (parent : Entity) (trustee_name : String) :
    List RawCharity → Option (String × String)
  | [] => none
  | charity :: rest =>
    let charity_num := pyOrStr charity.charityNumber charity.registeredCharityNumber
    if !optTruthy charity_num || visited.charities.contains (charity_num.getD "") then
      trustee_candidate visited parent trustee_name rest
    else if charity_num == parent.charity_number then
      trustee_candidate visited parent trustee_name rest
    else
      let charity_name := (pyOrStr charity.charityName charity.name).getD ""
      if charity_name.toLower == trustee_name.toLower then
        some (charity_num.getD "", charity_name)
      else trustee_candidate visited parent trustee_name rest

/-- The trustee section of `_build_downward_tree`: for each trustee cached
in the parent's `enriched_data`, search the registry by name and, on the
first qualifying same-named charity, mark it visited, get-or-create the
related record (one level only, no recursion) and add a `trustee_charity`
edge.  A failed details fetch still leaves the number in the visited set. -/
def trustee_loop (env : TreeEnv) (parent : Entity) (d : Nat) :
    BuildState → List TrusteeParsed → BuildState × List TreeNode
  | s, [] => (s, [])
  | s, t :: rest =>
    let trustee_name := t.name.getD ""
    let charities := env.search_charities trustee_name 3
    let after :=
      match trustee_candidate s.visited parent trustee_name charities with
      | none => (s, ([] : List TreeNode))
      | some (charity_num, charity_name) =>
        let s := { s with visited :=
          { s.visited with charities := s.visited.charities ++ [charity_num] } }
        let related := get_or_create_related_charity env s.db parent charity_num charity_name d
        match related.1 with
        | none => ({ s with db := related.2 }, [])
        | some related_entity =>
          let edged := create_ownership related.2 parent.id related_entity.id
            "trustee_charity" "charity_commission" (some ("Trustee: " ++ trustee_name)) none
          ({ s with db := edged.2 }, [TreeNode.mk related_entity.id "trustee_charity" []])
    let rest_result := trustee_loop env parent d after.1 rest
    (rest_result.1, after.2 ++ rest_result.2)

/-- The `for sub in subsidiaries` loop of `_build_downward_tree`:
visited-set dedup by company number, get-or-create of the child record, a
`subsidiary` edge, and recursion into children that carry a charity number
(`recurse` is the depth-`d+1` downward call supplied by the caller). -/
def subs_loop (recurse : BuildState → Entity → BuildState × List TreeNode × Nat)
    (parent : Entity) (d : Nat) :
    BuildState → List SubsidiaryRaw → BuildState × List TreeNode × Nat
  | s, [] => (s, [], d)
  | s, sub :: rest =>
    let sub_name := sub.subsidiaryName.getD "Unknown"
    let company_number := sub.companyNumber
    if optTruthy company_number && s.visited.companies.contains (company_number.getD "") then
      subs_loop recurse parent d s rest
    else
      let s := if optTruthy company_number then
          { s with visited :=
            { s.visited with companies := s.visited.companies ++ [company_number.getD ""] } }
        else s
      let created := get_or_create_subsidiary_entity s.db parent sub_name company_number d
      let child := created.1
      let edged := create_ownership created.2 parent.id child.id
        "subsidiary" "charity_commission" none none
      let s := { s with db := edged.2 }
      let rec_result :=
        if optTruthy child.charity_number then recurse s child
        else (s, [], d)
      let node := TreeNode.mk child.id "subsidiary" rec_result.2.1
      let rest_result := subs_loop recurse parent d rec_result.1 rest
      (rest_result.1, node :: rest_result.2.1,
       max (max d rec_result.2.2) rest_result.2.2)

/-- `OwnershipTreeBuilder._build_downward_tree`: the subsidiary loop (when
the parent carries a charity number) followed by the trustee section (when
the parent carries enriched data). -/
def build_downward_tree (env : TreeEnv) (D : Nat) :
    Nat → BuildState → Entity → Nat → BuildState × List TreeNode × Nat
  | 0, s, _, d => (s, [], d - 1)
  | fuel + 1, s, parent, d =>
    if d > D then (s, [], d - 1)
    else
      let subs_result :=
        if optTruthy parent.charity_number then
          subs_loop (fun s' child => build_downward_tree env D fuel s' child (d + 1))
            parent d s (env.get_charity_subsidiaries (parent.charity_number.getD ""))
        else (s, [], d)
      let trustee_result :=
        match parent.enriched_data with
        | none => (subs_result.1, [])
        | some ed => trustee_loop env parent d subs_result.1 ed.trustees
      (trustee_result.1, subs_result.2.1 ++ trustee_result.2, subs_result.2.2)

/-- The `for ownership in existing_ownerships` loop of `_build_upward_tree`:
owner lookup, visited-set dedup by charity number, unconditional upward
recursion (`recurse` is the depth-`d+1` upward call). -/
def up_loop (recurse : BuildState → Entity → BuildState × List TreeNode × Nat)
    (child : Entity) (d : Nat) :
    BuildState → List EntityOwnership → BuildState × List TreeNode × Nat
  | s, [] => (s, [], d)
  | s, ownership :: rest =>
    match s.db.entities.find? (fun e => e.id == ownership.owner_id) with
    | none => up_loop recurse child d s rest
    | some owner =>
      if optTruthy owner.charity_number &&
          s.visited.charities.contains (owner.charity_number.getD "") then
        up_loop recurse child d s rest
      else
        let s := if optTruthy owner.charity_number then
            { s with visited :=
              { s.visited with charities := s.visited.charities ++ [owner.charity_number.getD ""] } }
          else s
        let rec_result := recurse s owner
        let node := TreeNode.mk owner.id ownership.ownership_type rec_result.2.1
        let rest_result := up_loop recurse child d rec_result.1 rest
        (rest_result.1, node :: rest_result.2.1,
         max (max d rec_result.2.2) rest_result.2.2)

/-- `OwnershipTreeBuilder._build_upward_tree`: walk the already-stored
edges where the current record is the owned side; reads but never writes
the store. -/
def build_upward_tree (D : Nat) :
    Nat → BuildState → Entity → Nat → BuildState × List TreeNode × Nat
  | 0, s, _, d => (s, [], d - 1)
  | fuel + 1, s, child, d =>
    if d > D then (s, [], d - 1)
    else
      let ownerships := s.db.edges.filter (fun o => o.owned_id == child.id)
      up_loop (fun s' owner => build_upward_tree D fuel s' owner (d + 1))
        child d s ownerships

/-- The `direction` argument of `build_tree_for_entity`. -/
inductive Direction where
  | up
  | down
  | both
deriving DecidableEq

/-- `OwnershipTreeBuilder._count_tree_entities`. -/
def count_tree_entities : List TreeNode → Nat
  | [] => 0
  | TreeNode.mk _ _ sub :: rest => 1 + count_tree_entities sub + count_tree_entities rest

/-- The tree dict returned by `build_tree_for_entity`. -/
structure TreeResult where
  root_id : Nat
  children : List TreeNode := []
  parents : List TreeNode := []
  total_entities : Nat := 1
  max_depth_reached : Nat := 0

/-- `OwnershipTreeBuilder.build_tree_for_entity`: look up the root, reset
the visited sets (seeding them with the root's numbers), run the downward
and/or upward traversal from depth 1, and assemble the tree dict.  `none`
models the `ValueError` for an unknown entity id. -/
def build_tree_for_entity (env : TreeEnv) (db : BuildDb) (entity_id : Nat)
    (max_depth : Nat) (direction : Direction) : Option (BuildDb × TreeResult) :=
  match db.entities.find? (fun e => e.id == entity_id) with
  | none => none
  | some root =>
    let visited : Visited :=
      { charities := if optTruthy root.charity_number then [root.charity_number.getD ""] else []
        companies := if optTruthy root.company_number then [root.company_number.getD ""] else [] }
    let s : BuildState := { db := db, visited := visited }
    let downPart :=
      if (direction == .down || direction == .both) && optTruthy root.charity_number then
        let r := build_downward_tree env max_depth (max_depth + 1) s root 1
        (r.1, r.2.1, max 0 r.2.2)
      else (s, [], 0)
    let upPart :=
      if direction == .up || direction == .both then
        let r := build_upward_tree max_depth (max_depth + 1) downPart.1 root 1
        (r.1, r.2.1, max downPart.2.2 r.2.2)
      else (downPart.1, [], downPart.2.2)
    some (upPart.1.db,
      { root_id := root.id
        children := downPart.2.1
        parents := upPart.2.1
        total_entities := 1 + count_tree_entities downPart.2.1 + count_tree_entities upPart.2.1
        max_depth_reached := upPart.2.2 })

/-! ## Claim C10: edges are frozen once created -/

/-- C10: for every (owner, owned) pair that already has an `EntityOwnership`
edge, any later `_create_ownership` call for that pair returns the stored
edge and leaves the store untouched, whatever relation type, source,
description or percentage the later call passes -- so a pair first linked as
`trustee_charity` is never re-labelled `subsidiary`, and vice versa. -/
theorem claim10_edge_frame (db : BuildDb) (owner_id owned_id : Nat)
    (ownership_type source : String) (description : Option String) (percentage : Option Rat)
    (e : EntityOwnership)
    (h : db.edges.find? (fun o => o.owner_id == owner_id && o.owned_id == owned_id) = some e) :
    create_ownership db owner_id owned_id ownership_type source description percentage = (e, db) := by
  unfold create_ownership
  rw [h]

/-- An edge stored as `trustee_charity`, and a store holding it. -/
def w10edge : EntityOwnership :=
  { owner_id := 1, owned_id := 2, ownership_type := "trustee_charity",
    source := "charity_commission", verified := true }

def w10db : BuildDb := { entities := [], edges := [w10edge], next_entity_id := 0 }

/-- Witness for C10: a later `subsidiary`-typed call on the pair (1, 2)
returns the stored `trustee_charity` edge and changes nothing. -/
theorem claim10_witness :
    w10db.edges.find? (fun o => o.owner_id == 1 && o.owned_id == 2) = some w10edge ∧
    create_ownership w10db 1 2 "subsidiary" "manual" none none = (w10edge, w10db) :=
  ⟨by decide, claim10_edge_frame w10db 1 2 "subsidiary" "manual" none none w10edge (by decide)⟩

/-! ## Claim C9: the number-extraction stage -/

/-- C9: when the record carries no (truthy) charity number, the stage-2 scan
(`original_name` first, then each string value of `original_data` in order,
with the 6-8-digit / SC / NI pattern families tried in that order,
case-insensitively -- see `extract_charity_number` and
`extract_number_from_entity`) finds a number, and the details fetch for it
succeeds, then `resolve_entity` returns the record updated with method
`number_extraction`, confidence 0.95, status `matched`, and the pipeline
stops there: the result is independent of the search/AI oracles. -/
theorem claim9_number_extraction (env : ResolveEnv) (use_ai : Bool) (e : Entity)
    (rdb : ResDb) (n : String) (raw : RawCharity)
    (h1 : optTruthy e.charity_number = false)
    (h2 : extract_number_from_entity e = some n)
    (h3 : env.get_full_charity_details n = .ok (some raw)) :
    resolve_entity env use_ai e rdb =
      (rdb, .ok (update_entity_from_charity e (parse_charity_data raw)
        "number_extraction" (mkRat 19 20))) ∧
    (update_entity_from_charity e (parse_charity_data raw)
      "number_extraction" (mkRat 19 20)).resolution_status = .matched ∧
    (update_entity_from_charity e (parse_charity_data raw)
      "number_extraction" (mkRat 19 20)).resolution_confidence = some (mkRat 19 20) ∧
    (update_entity_from_charity e (parse_charity_data raw)
      "number_extraction" (mkRat 19 20)).resolution_method = some "number_extraction" := by
  refine ⟨?_, rfl, rfl, rfl⟩
  simp only [resolve_entity, h1, Bool.false_eq_true, if_false, resolve_entity_extract, h2, h3]

/-- A registry payload for charity 220949. -/
def w9raw : RawCharity :=
  { charityNumber := some "220949", charityName := some "THE BRITISH RED CROSS SOCIETY",
    registrationStatus := some "Registered" }

/-- An environment whose only successful details fetch is for 220949. -/
def w9env : ResolveEnv :=
  { get_full_charity_details := fun n => if n == "220949" then .ok (some w9raw) else .ok none
    search_charities := fun _ _ => .ok []
    calculate_similarity := fun _ _ => 0
    openai := none }

/-- A pending record whose name embeds the registry number. -/
def w9ent : Entity := { id := 3, batch_id := 1, original_name := "Red Cross (charity 220949)" }

/-- Witness for C9 at a concrete record and registry. -/
theorem claim9_witness :
    optTruthy w9ent.charity_number = false ∧
    extract_number_from_entity w9ent = some "220949" ∧
    w9env.get_full_charity_details "220949" = .ok (some w9raw) ∧
    resolve_entity w9env true w9ent {} =
      ({}, .ok (update_entity_from_charity w9ent (parse_charity_data w9raw)
        "number_extraction" (mkRat 19 20))) :=
  ⟨by decide, by decide, rfl,
   (claim9_number_extraction w9env true w9ent {} "220949" w9raw
     (by decide) (by decide) rfl).1⟩

/-! ## Claim C1: the matched/confirmed number-and-confidence invariant -/

/-- Characterization of `_get_or_create_subsidiary_entity`: every entity of
the output store was already stored, or is the created subsidiary record. -/
theorem mem_get_or_create_subsidiary (db : BuildDb) (parent : Entity) (name : String)
    (cn : Option String) (lvl : Nat) (e : Entity)
    (h : e ∈ (get_or_create_subsidiary_entity db parent name cn lvl).2.entities) :
    e ∈ db.entities ∨
      (e.resolution_status = .matched ∧ e.resolution_confidence = some 1 ∧
       e.resolution_method = some "subsidiary_discovery" ∧
       e.company_number = cn ∧ e.charity_number = none ∧ e.ownership_level = lvl) := by
  unfold get_or_create_subsidiary_entity at h
  rcases hf : (if optTruthy cn then
      db.entities.find? (fun x =>
        x.batch_id == parent.batch_id && x.company_number == cn)
    else none) with _ | e0
  · rw [hf] at h
    simp only [List.mem_append, List.mem_singleton] at h
    rcases h with h | h
    · exact Or.inl h
    · subst h
      exact Or.inr ⟨rfl, rfl, rfl, rfl, rfl, rfl⟩
  · rw [hf] at h
    exact Or.inl h

/-- Characterization of `_get_or_create_related_charity`: every entity of
the output store was already stored, or is the created related-charity
record (which always carries the searched charity number). -/
theorem mem_get_or_create_related (env : TreeEnv) (db : BuildDb) (parent : Entity)
    (chn name : String) (lvl : Nat) (e : Entity)
    (h : e ∈ (get_or_create_related_charity env db parent chn name lvl).2.entities) :
    e ∈ db.entities ∨
      (e.resolution_status = .matched ∧ e.resolution_confidence = some 1 ∧
       e.resolution_method = some "related_discovery" ∧
       e.charity_number = some chn ∧ e.ownership_level = lvl) := by
  unfold get_or_create_related_charity at h
  rcases hf : db.entities.find? (fun x =>
      x.batch_id == parent.batch_id && x.charity_number == some chn) with _ | e0
  · rw [hf] at h
    rcases hd : env.get_full_charity_details chn with _ | raw
    · rw [hd] at h
      exact Or.inl h
    · rw [hd] at h
      simp only [List.mem_append, List.mem_singleton] at h
      rcases h with h | h
      · exact Or.inl h
      · subst h
        exact Or.inr ⟨rfl, rfl, rfl, rfl, rfl⟩
  · rw [hf] at h
    exact Or.inl h

/-- C1 counterexample: `_get_or_create_subsidiary_entity` for a subsidiary
whose registry record carries no `companyNumber` creates a Record with
`resolution_status = matched` but with neither a charity number nor a
company number -- refuting the invariant as stated. -/
def cx1parent : Entity := { id := 0, batch_id := 0, original_name := "Root" }

theorem claim1_counterexample :
    (get_or_create_subsidiary_entity {} cx1parent "Sub Trading Ltd" none 1).1.resolution_status
        = .matched ∧
    (get_or_create_subsidiary_entity {} cx1parent "Sub Trading Ltd" none 1).1.charity_number
        = none ∧
    (get_or_create_subsidiary_entity {} cx1parent "Sub Trading Ltd" none 1).1.company_number
        = none := by
  decide

/-- C1 as amended: whenever an operation sets `matched` or `confirmed`,
`resolution_confidence` is set; the number half of the invariant holds for
the apply-details step when the parsed payload carries a charity number (or
the record already had a company number), for `confirm_resolution` under a
registry whose successful payloads carry a charity number, for subsidiary
records exactly when the subsidiary carries a company number (see the
counterexample), and unconditionally for related-charity records. -/
theorem claim1_amended :
    (∀ (e : Entity) (pd : ParsedCharity) (m : String) (c : Rat),
      (update_entity_from_charity e pd m c).resolution_status = .matched ∧
      (update_entity_from_charity e pd m c).resolution_confidence = some c ∧
      (pd.charity_number.isSome ∨ e.company_number.isSome →
        (update_entity_from_charity e pd m c).charity_number.isSome ∨
        (update_entity_from_charity e pd m c).company_number.isSome)) ∧
    (∀ env entities rdb entity_id resolution_id charity_number rdb' e' e0,
      entities.find? (fun x => x.id == entity_id) = some e0 →
      e0.resolution_status ≠ .confirmed →
      (∀ n raw, env.get_full_charity_details n = Except.ok (some raw) →
        (parse_charity_data raw).charity_number.isSome) →
      confirm_resolution env entities rdb entity_id resolution_id charity_number
        = some (rdb', .ok e') →
      e'.resolution_status = .confirmed →
      e'.resolution_confidence = some 1 ∧
      (e'.charity_number.isSome ∨ e'.company_number.isSome)) ∧
    (∀ db parent name cn lvl e,
      e ∈ (get_or_create_subsidiary_entity db parent name cn lvl).2.entities →
      e ∈ db.entities ∨
        (e.resolution_status = .matched ∧ e.resolution_confidence = some 1 ∧
         (cn.isSome → e.charity_number.isSome ∨ e.company_number.isSome))) ∧
    (∀ env db parent chn name lvl e,
      e ∈ (get_or_create_related_charity env db parent chn name lvl).2.entities →
      e ∈ db.entities ∨
        (e.resolution_status = .matched ∧ e.resolution_confidence = some 1 ∧
         (e.charity_number.isSome ∨ e.company_number.isSome))) := by
  refine ⟨?_, ?_, ?_, ?_⟩
  · intro e pd m c
    refine ⟨rfl, rfl, ?_⟩
    intro h
    rcases h with h | h
    · exact Or.inl h
    · exact Or.inr h
  · intro env entities rdb entity_id resolution_id charity_number rdb' e' e0 hfind hne hwell heq hconf
    unfold confirm_resolution at heq
    rw [hfind] at heq
    simp only at heq
    split at heq
    · rename_i hd
      split at heq
      · simp at heq
      · rename_i raw hr
        simp only [Option.some.injEq, Prod.mk.injEq, Except.ok.injEq] at heq
        rcases heq with ⟨-, heq⟩
        subst heq
        refine ⟨rfl, Or.inl ?_⟩
        exact hwell _ _ hr
      · simp only [Option.some.injEq, Prod.mk.injEq, Except.ok.injEq] at heq
        rcases heq with ⟨-, heq⟩
        subst heq
        exact absurd hconf hne
    · simp only [Option.some.injEq, Prod.mk.injEq, Except.ok.injEq] at heq
      rcases heq with ⟨-, heq⟩
      subst heq
      simp at hconf
  · intro db parent name cn lvl e h
    rcases mem_get_or_create_subsidiary db parent name cn lvl e h with h | ⟨h1, h2, -, h4, -, -⟩
    · exact Or.inl h
    · refine Or.inr ⟨h1, h2, ?_⟩
      intro hcn
      exact Or.inr (h4 ▸ hcn)
  · intro env db parent chn name lvl e h
    rcases mem_get_or_create_related env db parent chn name lvl e h with h | ⟨h1, h2, -, h4, -⟩
    · exact Or.inl h
    · exact Or.inr ⟨h1, h2, Or.inl (by rw [h4]; rfl)⟩

/-- Witness for C1 (the subsidiary-creation conjunct at a concrete input
with a present company number). -/
theorem claim1_witness :
    (get_or_create_subsidiary_entity {} cx1parent "Sub Trading Ltd" (some "01234567") 1).1
      ∈ (get_or_create_subsidiary_entity {} cx1parent "Sub Trading Ltd" (some "01234567") 1).2.entities ∧
    ((get_or_create_subsidiary_entity {} cx1parent "Sub Trading Ltd" (some "01234567") 1).1
        ∈ ({} : BuildDb).entities ∨
      ((get_or_create_subsidiary_entity {} cx1parent "Sub Trading Ltd" (some "01234567") 1).1.resolution_status = .matched ∧
       (get_or_create_subsidiary_entity {} cx1parent "Sub Trading Ltd" (some "01234567") 1).1.resolution_confidence = some 1 ∧
       ((some "01234567" : Option String).isSome →
         (get_or_create_subsidiary_entity {} cx1parent "Sub Trading Ltd" (some "01234567") 1).1.charity_number.isSome ∨
         (get_or_create_subsidiary_entity {} cx1parent "Sub Trading Ltd" (some "01234567") 1).1.company_number.isSome))) :=
  ⟨by decide,
   claim1_amended.2.2.1 {} cx1parent "Sub Trading Ltd" (some "01234567") 1 _ (by decide)⟩

/-! ## Claim C2: failure propagation and the per-record boundary -/

/-- C2 counterexample: a registry whose name search raises does not make
`resolve_entity` raise -- `search_candidates` catches the exception itself,
returns no candidates, and the record is marked `no_match` instead of the
failure propagating to the orchestrator. -/
def cx2env : ResolveEnv :=
  { get_full_charity_details := fun _ => .ok none
    search_charities := fun _ _ => .error "registry down"
    calculate_similarity := fun _ _ => 0
    openai := none }

def cx2ent : Entity := { id := 4, batch_id := 2, original_name := "zzz" }

theorem claim2_counterexample :
    resolve_entity cx2env true cx2ent {} =
      ({}, .ok { cx2ent with resolution_status := .no_match, resolved_at := true }) := rfl

/-- C2 as amended: exceptions of the registry details fetches propagate out
of `resolve_entity` (shown here for the direct-lookup stage) and are caught
only at the orchestrator's per-record boundary, which marks the record
`manual_review`, counts it failed, and continues -- the loop always
processes every record.  But an exception inside the candidate search is
caught within `search_candidates` and surfaces as an empty candidate list,
so the record ends `no_match` rather than the failure propagating. -/
theorem claim2_amended :
    (∀ env u (e : Entity) (rdb : ResDb) m, optTruthy e.charity_number = true →
      env.get_full_charity_details (e.charity_number.getD "") = .error m →
      resolve_entity env u e rdb = (rdb, .error m)) ∧
    (∀ env u (e : Entity) (rdb : ResDb) m, optTruthy e.charity_number = false →
      extract_number_from_entity e = none →
      env.search_charities e.original_name 10 = .error m →
      resolve_entity env u e rdb =
        (rdb, .ok { e with resolution_status := .no_match, resolved_at := true })) ∧
    (∀ env u s es, (run_records env u s es).processed = s.processed + es.length) ∧
    (∀ env u (s : LoopState) (e : Entity) m,
      (resolve_entity env u e s.rdb).2 = .error m →
      (process_record env u s e).failed = s.failed + 1 ∧
      (process_record env u s e).done =
        s.done ++ [{ e with resolution_status := .manual_review, resolved_at := true }]) := by
  refine ⟨?_, ?_, ?_, ?_⟩
  · intro env u e rdb m h1 h2
    simp only [resolve_entity, h1, if_true, h2]
  · intro env u e rdb m h1 h2 h3
    simp only [resolve_entity, h1, Bool.false_eq_true, if_false, resolve_entity_extract, h2,
      resolve_entity_search, search_candidates, h3]
  · intro env u s es
    induction es generalizing s with
    | nil => simp [run_records]
    | cons e es ih =>
      have hstep : (process_record env u s e).processed = s.processed + 1 := rfl
      simp only [run_records, List.foldl_cons] at *
      rw [ih, hstep, List.length_cons]
      omega
  · intro env u s e m h
    unfold process_record
    constructor
    · simp only [h]
    · simp only [h]

/-- A registry whose details fetch always raises, and a record carrying a
charity number (so the direct-lookup stage fires). -/
def w2env : ResolveEnv :=
  { get_full_charity_details := fun _ => .error "boom"
    search_charities := fun _ _ => .ok []
    calculate_similarity := fun _ _ => 0
    openai := none }

def w2ent : Entity := { id := 9, batch_id := 2, original_name := "X", charity_number := some "123456" }

/-- Witness for C2 (amended): the direct-lookup exception propagates out of
`resolve_entity` at a concrete input. -/
theorem claim2_witness :
    optTruthy w2ent.charity_number = true ∧
    w2env.get_full_charity_details (w2ent.charity_number.getD "") = .error "boom" ∧
    resolve_entity w2env true w2ent {} = ({}, .error "boom") :=
  ⟨by decide, rfl, claim2_amended.1 w2env true w2ent {} "boom" (by decide) rfl⟩

/-! ## Claim C6: the candidate audit trail -/

theorem addCandidateRows_length (cs : List Candidate) (rdb : ResDb) (eid : Nat) :
    (addCandidateRows rdb eid cs).resolutions.length = rdb.resolutions.length + cs.length := by
  induction cs generalizing rdb with
  | nil => simp [addCandidateRows]
  | cons c cs ih =>
    simp only [addCandidateRows, List.foldl_cons] at *
    rw [ih]
    simp
    omega

theorem addCandidateRows_mem (cs : List Candidate) (rdb : ResDb) (eid : Nat) (row : EntityResolution)
    (h : row ∈ (addCandidateRows rdb eid cs).resolutions) :
    row ∈ rdb.resolutions ∨ (row.entity_id = eid ∧ row.is_selected = false) := by
  induction cs generalizing rdb with
  | nil => exact Or.inl h
  | cons c cs ih =>
    simp only [addCandidateRows, List.foldl_cons] at h
    rcases ih _ h with h1 | h1
    · simp only [List.mem_append, List.mem_singleton] at h1
      rcases h1 with h1 | h1
      · exact Or.inl h1
      · subst h1
        exact Or.inr ⟨rfl, rfl⟩
    · exact Or.inr h1

theorem markSelected_length (rows : List EntityResolution) (eid : Nat) (t : String) :
    (markSelected rows eid t).length = rows.length := by
  simp [markSelected]

theorem markSelected_mem (rows : List EntityResolution) (eid : Nat) (t : String)
    (row' : EntityResolution) (h : row' ∈ markSelected rows eid t) :
    ∃ row ∈ rows, row'.entity_id = row.entity_id ∧
      (row'.is_selected = true → row.is_selected = true ∨ row'.charity_number = t) := by
  unfold markSelected at h
  rcases List.mem_map.mp h with ⟨row, hrow, heq⟩
  by_cases hc : row.entity_id = eid ∧ row.charity_number = t
  · rw [if_pos hc] at heq
    subst heq
    exact ⟨row, hrow, rfl, fun _ => Or.inr hc.2⟩
  · rw [if_neg hc] at heq
    subst heq
    exact ⟨row, hrow, rfl, fun hs => Or.inl hs⟩

/-- Shape of the session rows after the AI stage: either untouched, or a
single `is_selected` update keyed on one charity number. -/
theorem ai_stage_shape (env : ResolveEnv) (u : Bool) (e : Entity) (rdb : ResDb)
    (cands : List Candidate) :
    (resolve_entity_ai env u e rdb cands).1.resolutions = rdb.resolutions ∨
    ∃ t, (resolve_entity_ai env u e rdb cands).1.resolutions
      = markSelected rdb.resolutions e.id t := by
  simp only [resolve_entity_ai]
  by_cases hu : u = true ∧ env.openai.isSome = true
  · rw [if_pos hu]
    rcases hai : ai_resolve_entity env e.original_name cands e.original_data with _ | ⟨n, c, r⟩
    · exact Or.inl rfl
    · dsimp only
      rcases hd : env.get_full_charity_details n with m | raw
      · exact Or.inl rfl
      · rcases raw with _ | raw
        · exact Or.inl rfl
        · exact Or.inr ⟨n, rfl⟩
  · rw [if_neg hu]
    exact Or.inl rfl

/-- Shape of the session rows after the whole search stage (candidates
nonempty): the audit rows for every candidate are appended, then at most one
`is_selected` update keyed on one charity number is applied. -/
theorem search_stage_shape (env : ResolveEnv) (u : Bool) (e : Entity) (rdb : ResDb)
    (best : Candidate) (rest : List Candidate)
    (hc : search_candidates env e.original_name 5 = best :: rest) :
    (resolve_entity_search env u e rdb).1.resolutions
        = (addCandidateRows rdb e.id (best :: rest)).resolutions ∨
    ∃ t, (resolve_entity_search env u e rdb).1.resolutions
        = markSelected (addCandidateRows rdb e.id (best :: rest)).resolutions e.id t := by
  simp only [resolve_entity_search]
  rw [hc]
  dsimp only
  by_cases hb : best.similarity_score ≥ mkRat 19 20
  · rw [if_pos hb]
    rcases hd : env.get_full_charity_details best.charity_number with m | raw
    · exact Or.inl rfl
    · rcases raw with _ | raw
      · exact ai_stage_shape env u e _ (best :: rest)
      · exact Or.inr ⟨best.charity_number, rfl⟩
  · rw [if_neg hb]
    exact ai_stage_shape env u e _ (best :: rest)

/-- C6 counterexample: when the registry returns the same charity twice (as
the repository's own mock search does for some names), the exact-match
`is_selected` update -- keyed on `charity_number`, not on a row id -- marks
BOTH audit rows selected, refuting "at most one of them has
is_selected=true". -/
def cx6raw : RawCharity := { charityNumber := some "N1", charityName := some "Helping Hands" }

def cx6env : ResolveEnv :=
  { get_full_charity_details := fun n => if n == "N1" then .ok (some cx6raw) else .ok none
    search_charities := fun _ _ => .ok [cx6raw, cx6raw]
    calculate_similarity := fun _ _ => 1
    openai := none }

def cx6ent : Entity := { id := 5, batch_id := 3, original_name := "Helping Hands" }

theorem claim6_counterexample :
    ((resolve_entity cx6env false cx6ent {}).1.resolutions.countP
      (fun r => r.is_selected)) = 2 ∧
    (resolve_entity cx6env false cx6ent {}).1.resolutions.length = 2 := by
  decide

/-- C6 as amended: when the search stage runs (no direct-lookup or
number-extraction shortcut fired) and returns N candidates -- ranked
descending by similarity score and capped at 5 -- exactly N CandidateMatch
rows for that record exist afterward regardless of outcome; all rows marked
`is_selected` share one charity number (at most one distinct selected
registry number -- but several ROWS can be selected when candidates share a
number, see the counterexample); and an empty search result yields
`no_match` with zero rows. -/
theorem claim6_amended (env : ResolveEnv) (u : Bool) (e : Entity) (rdb : ResDb)
    (hno : optTruthy e.charity_number = false)
    (hex : extract_number_from_entity e = none)
    (hrows : rdb.resolutions = []) :
    (search_candidates env e.original_name 5).length ≤ 5 ∧
    ((search_candidates env e.original_name 5).map
      (fun c => c.similarity_score)).Sorted (· ≥ ·) ∧
    (resolve_entity env u e rdb).1.resolutions.length
      = (search_candidates env e.original_name 5).length ∧
    (∀ row ∈ (resolve_entity env u e rdb).1.resolutions, row.entity_id = e.id) ∧
    (∀ r1 ∈ (resolve_entity env u e rdb).1.resolutions,
     ∀ r2 ∈ (resolve_entity env u e rdb).1.resolutions,
      r1.is_selected = true → r2.is_selected = true →
      r1.charity_number = r2.charity_number) ∧
    (search_candidates env e.original_name 5 = [] →
      resolve_entity env u e rdb
        = (rdb, .ok { e with resolution_status := .no_match, resolved_at := true })) := by
  have hred : resolve_entity env u e rdb = resolve_entity_search env u e rdb := by
    simp only [resolve_entity, hno, Bool.false_eq_true, if_false, resolve_entity_extract, hex]
  refine ⟨?_, ?_, ?_, ?_, ?_, ?_⟩
  · unfold search_candidates
    split
    · simp
    · exact List.length_take_le 5 _
  · unfold search_candidates
    split
    · simp
    · rename_i charities _
      refine List.Pairwise.map _ (fun a b h => h) ?_
      exact List.Pairwise.sublist (List.take_sublist 5 _)
        (List.sorted_insertionSort candGE _)
  · rw [hred]
    rcases hc : search_candidates env e.original_name 5 with _ | ⟨best, rest⟩
    · unfold resolve_entity_search
      rw [hc]
      simp [hrows]
    · rcases search_stage_shape env u e rdb best rest hc with hsh | ⟨t, hsh⟩
      · rw [hsh, addCandidateRows_length, hrows]
        simp
      · rw [hsh, markSelected_length, addCandidateRows_length, hrows]
        simp
  · rw [hred]
    rcases hc : search_candidates env e.original_name 5 with _ | ⟨best, rest⟩
    · unfold resolve_entity_search
      rw [hc]
      simp only
      intro row hrow
      rw [hrows] at hrow
      simp at hrow
    · intro row hrow
      rcases search_stage_shape env u e rdb best rest hc with hsh | ⟨t, hsh⟩
      · rw [hsh] at hrow
        rcases addCandidateRows_mem _ _ _ _ hrow with h | h
        · rw [hrows] at h
          simp at h
        · exact h.1
      · rw [hsh] at hrow
        rcases markSelected_mem _ _ _ _ hrow with ⟨row0, hrow0, heid, -⟩
        rcases addCandidateRows_mem _ _ _ _ hrow0 with h | h
        · rw [hrows] at h
          simp at h
        · rw [heid]
          exact h.1
  · rw [hred]
    have hunsel : ∀ row ∈ (addCandidateRows rdb e.id
        (search_candidates env e.original_name 5)).resolutions, row.is_selected = false := by
      intro row hrow
      rcases addCandidateRows_mem _ _ _ _ hrow with h | h
      · rw [hrows] at h
        simp at h
      · exact h.2
    rcases hc : search_candidates env e.original_name 5 with _ | ⟨best, rest⟩
    · unfold resolve_entity_search
      rw [hc]
      simp only
      intro r1 hr1
      rw [hrows] at hr1
      simp at hr1
    · intro r1 hr1 r2 hr2 hs1 hs2
      rw [hc] at hunsel
      rcases search_stage_shape env u e rdb best rest hc with hsh | ⟨t, hsh⟩
      · rw [hsh] at hr1
        exact absurd hs1 (by rw [hunsel r1 hr1]; simp)
      · rw [hsh] at hr1 hr2
        rcases markSelected_mem _ _ _ _ hr1 with ⟨row1, hrow1, -, hsel1⟩
        rcases markSelected_mem _ _ _ _ hr2 with ⟨row2, hrow2, -, hsel2⟩
        rcases hsel1 hs1 with h | h
        · exact absurd h (by rw [hunsel row1 hrow1]; simp)
        · rcases hsel2 hs2 with h2 | h2
          · exact absurd h2 (by rw [hunsel row2 hrow2]; simp)
          · rw [h, h2]
  · intro hc
    rw [hred]
    unfold resolve_entity_search
    rw [hc]

/-- Witness for C6: a concrete search-stage run with two ranked candidates
and no confident match (two audit rows are persisted, none selected). -/
def w6rawA : RawCharity := { charityNumber := some "A1", charityName := some "Alpha Aid" }

def w6rawB : RawCharity := { charityNumber := some "B2", charityName := some "Beta Aid" }

def w6env : ResolveEnv :=
  { get_full_charity_details := fun _ => .ok none
    search_charities := fun _ _ => .ok [w6rawB, w6rawA]
    calculate_similarity := fun _ n => if n == "Alpha Aid" then mkRat 3 5 else mkRat 11 20
    openai := none }

def w6ent : Entity := { id := 6, batch_id := 3, original_name := "Alpha Aid" }

theorem claim6_witness :
    optTruthy w6ent.charity_number = false ∧
    extract_number_from_entity w6ent = none ∧
    (resolve_entity w6env true w6ent {}).1.resolutions.length
      = (search_candidates w6env w6ent.original_name 5).length ∧
    (search_candidates w6env w6ent.original_name 5).length = 2 :=
  ⟨by decide, by decide,
   (claim6_amended w6env true w6ent {} (by decide) (by decide) rfl).2.2.1,
   by decide⟩

/-! ## Claim C3: the depth bound of the tree builder -/

theorem create_ownership_entities (db : BuildDb) (a b : Nat) (t src : String)
    (desc : Option String) (pct : Option Rat) :
    (create_ownership db a b t src desc pct).2.entities = db.entities := by
  unfold create_ownership
  rcases h : db.edges.find? (fun o => o.owner_id == a && o.owned_id == b) with _ | e
  · rw [h]
  · rw [h]

/-- Entities after the trustee section: already stored, or created at
exactly the current traversal depth. -/
theorem trustee_loop_levels (env : TreeEnv) (parent : Entity) (d : Nat)
    (ts : List TrusteeParsed) (s : BuildState) :
    ∀ e ∈ (trustee_loop env parent d s ts).1.db.entities,
      e ∈ s.db.entities ∨ e.ownership_level = d := by
  induction ts generalizing s with
  | nil => exact fun e he => Or.inl he
  | cons t ts ih =>
    intro e he
    rw [trustee_loop] at he
    rcases htc : trustee_candidate s.visited parent (t.name.getD "") (env.search_charities (t.name.getD "") 3)
      with _ | ⟨chn, chname⟩
    · rw [htc] at he
      exact ih _ e he
    · rw [htc] at he
      dsimp only at he
      rcases hrel : (get_or_create_related_charity env s.db parent chn chname d).1 with _ | rel
      · rw [hrel] at he
        rcases ih _ e he with h | h
        · rcases mem_get_or_create_related env s.db parent chn chname d e h with h2 | h2
          · exact Or.inl h2
          · exact Or.inr h2.2.2.2.2
        · exact Or.inr h
      · rw [hrel] at he
        rcases ih _ e he with h | h
        · rw [create_ownership_entities] at h
          rcases mem_get_or_create_related env s.db parent chn chname d e h with h2 | h2
          · exact Or.inl h2
          · exact Or.inr h2.2.2.2.2
        · exact Or.inr h

/-- Entities after the subsidiary loop: already stored, created at exactly
the current depth, or created by the recursion (whose creations the
`Hrec` hypothesis bounds). -/
theorem subs_loop_levels (recurse : BuildState → Entity → BuildState × List TreeNode × Nat)
    (parent : Entity) (d D : Nat) (subs : List SubsidiaryRaw) (s : BuildState)
    (hd : d ≤ D)
    (Hrec : ∀ s' c, ∀ e ∈ (recurse s' c).1.db.entities,
      e ∈ s'.db.entities ∨ (d + 1 ≤ e.ownership_level ∧ e.ownership_level ≤ D)) :
    ∀ e ∈ (subs_loop recurse parent d s subs).1.db.entities,
      e ∈ s.db.entities ∨ (d ≤ e.ownership_level ∧ e.ownership_level ≤ D) := by
  induction subs generalizing s with
  | nil => exact fun e he => Or.inl he
  | cons sub subs ih =>
    intro e he
    rw [subs_loop] at he
    by_cases hskip : (optTruthy sub.companyNumber
        && s.visited.companies.contains (sub.companyNumber.getD "")) = true
    · rw [if_pos hskip] at he
      exact ih _ e he
    · rw [if_neg hskip] at he
      dsimp only at he
      by_cases hrec : optTruthy (get_or_create_subsidiary_entity
          (if optTruthy sub.companyNumber then
            { s with visited := { s.visited with
              companies := s.visited.companies ++ [sub.companyNumber.getD ""] } }
           else s).db parent (sub.subsidiaryName.getD "Unknown") sub.companyNumber d).1.charity_number = true
      · rw [if_pos hrec] at he
        rcases ih _ e he with h | h
        · rcases Hrec _ _ e h with h2 | h2
          · rw [create_ownership_entities] at h2
            rcases mem_get_or_create_subsidiary _ parent _ sub.companyNumber d e h2 with h3 | h3
            · split at h3
              · exact Or.inl h3
              · exact Or.inl h3
            · exact Or.inr ⟨le_of_eq h3.2.2.2.2.2.symm, h3.2.2.2.2.2 ▸ hd⟩
          · exact Or.inr ⟨le_trans (Nat.le_succ d) h2.1, h2.2⟩
        · exact Or.inr h
      · rw [if_neg hrec] at he
        rcases ih _ e he with h | h
        · rw [create_ownership_entities] at h
          rcases mem_get_or_create_subsidiary _ parent _ sub.companyNumber d e h with h3 | h3
          · split at h3
            · exact Or.inl h3
            · exact Or.inl h3
          · exact Or.inr ⟨le_of_eq h3.2.2.2.2.2.symm, h3.2.2.2.2.2 ▸ hd⟩
        · exact Or.inr h

/-- Downward traversal: every new Record's `ownership_level` lies between
the entry depth and the bound `D` (creations only ever happen at depths
`d ≤ D`, because the guard returns first otherwise). -/
theorem build_downward_levels (env : TreeEnv) (D : Nat) :
    ∀ (fuel : Nat) (s : BuildState) (parent : Entity) (d : Nat),
    ∀ e ∈ (build_downward_tree env D fuel s parent d).1.db.entities,
      e ∈ s.db.entities ∨ (d ≤ e.ownership_level ∧ e.ownership_level ≤ D) := by
  intro fuel
  induction fuel with
  | zero => exact fun s parent d e he => Or.inl he
  | succ fuel ih =>
    intro s parent d e he
    rw [build_downward_tree] at he
    by_cases hgd : d > D
    · rw [if_pos hgd] at he
      exact Or.inl he
    · rw [if_neg hgd] at he
      dsimp only at he
      have hd : d ≤ D := Nat.le_of_not_lt hgd
      by_cases htr : optTruthy parent.charity_number = true
      · rw [if_pos htr] at he
        rcases hsub : subs_loop (fun s' child => build_downward_tree env D fuel s' child (d + 1))
            parent d s (env.get_charity_subsidiaries (parent.charity_number.getD ""))
          with ⟨s1, nodes, m⟩
        rw [hsub] at he
        have hmem : ∀ x ∈ s1.db.entities,
            x ∈ s.db.entities ∨ (d ≤ x.ownership_level ∧ x.ownership_level ≤ D) := by
          intro x hx
          have := subs_loop_levels (fun s' child => build_downward_tree env D fuel s' child (d + 1))
            parent d D (env.get_charity_subsidiaries (parent.charity_number.getD "")) s hd
            (fun s' c e' he' => ih s' c (d + 1) e' he') x
          rw [hsub] at this
          exact this hx
        rcases hed : parent.enriched_data with _ | ed
        · rw [hed] at he
          dsimp only at he
          exact hmem e he
        · rw [hed] at he
          dsimp only at he
          rcases trustee_loop_levels env parent d ed.trustees s1 e he with h | h
          · exact hmem e h
          · exact Or.inr ⟨le_of_eq h.symm, h ▸ hd⟩
      · rw [if_neg htr] at he
        dsimp only at he
        rcases hed : parent.enriched_data with _ | ed
        · rw [hed] at he
          dsimp only at he
          exact Or.inl he
        · rw [hed] at he
          dsimp only at he
          rcases trustee_loop_levels env parent d ed.trustees s e he with h | h
          · exact Or.inl h
          · exact Or.inr ⟨le_of_eq h.symm, h ▸ hd⟩

theorem up_loop_db (recurse : BuildState → Entity → BuildState × List TreeNode × Nat)
    (child : Entity) (d : Nat) (os : List EntityOwnership) (s : BuildState)
    (Hrec : ∀ s' c, ((recurse s' c).1).db = s'.db) :
    ((up_loop recurse child d s os).1).db = s.db := by
  induction os generalizing s with
  | nil => rfl
  | cons o os ih =>
    rw [up_loop]
    rcases hf : s.db.entities.find? (fun e => e.id == o.owner_id) with _ | owner
    · rw [hf]
      exact ih s
    · rw [hf]
      dsimp only
      by_cases hskip : (optTruthy owner.charity_number
          && s.visited.charities.contains (owner.charity_number.getD "")) = true
      · rw [if_pos hskip]
        exact ih s
      · rw [if_neg hskip]
        dsimp only
        rw [ih, Hrec]
        split
        · rfl
        · rfl

/-- Upward traversal never writes the store. -/
theorem build_upward_db (D : Nat) :
    ∀ (fuel : Nat) (s : BuildState) (child : Entity) (d : Nat),
    ((build_upward_tree D fuel s child d).1).db = s.db := by
  intro fuel
  induction fuel with
  | zero => exact fun s child d => rfl
  | succ fuel ih =>
    intro s child d
    rw [build_upward_tree]
    by_cases hgd : d > D
    · rw [if_pos hgd]
    · rw [if_neg hgd]
      dsimp only
      exact up_loop_db _ child d _ s (fun s' c => ih s' c (d + 1))

/-- C3: `build_tree_for_entity(root, max_depth = D)` never creates a Record
with `ownership_level` outside `[1, D]` (in particular never above `D`),
and the downward recursion returns immediately, creating nothing, once the
current depth exceeds `D`. -/
theorem claim3_depth_bound :
    (∀ env db entity_id D dir db' t,
      build_tree_for_entity env db entity_id D dir = some (db', t) →
      ∀ e ∈ db'.entities, e ∈ db.entities ∨
        (1 ≤ e.ownership_level ∧ e.ownership_level ≤ D)) ∧
    (∀ env D fuel s parent d, d > D →
      build_downward_tree env D (fuel + 1) s parent d = (s, [], d - 1)) := by
  constructor
  · intro env db entity_id D dir db' t heq e he
    unfold build_tree_for_entity at heq
    rcases hf : db.entities.find? (fun x => x.id == entity_id) with _ | root
    · rw [hf] at heq
      exact absurd heq (by simp)
    · rw [hf] at heq
      dsimp only at heq
      by_cases hdown : ((dir == Direction.down || dir == Direction.both)
          && optTruthy root.charity_number) = true
      · rw [if_pos hdown] at heq
        by_cases hup : (dir == Direction.up || dir == Direction.both) = true
        · rw [if_pos hup] at heq
          simp only [Option.some.injEq, Prod.mk.injEq] at heq
          rcases heq with ⟨hdb, -⟩
          rw [build_upward_db] at hdb
          subst hdb
          exact build_downward_levels env D (D + 1) _ root 1 e he
        · rw [if_neg hup] at heq
          simp only [Option.some.injEq, Prod.mk.injEq] at heq
          rcases heq with ⟨hdb, -⟩
          subst hdb
          exact build_downward_levels env D (D + 1) _ root 1 e he
      · rw [if_neg hdown] at heq
        by_cases hup : (dir == Direction.up || dir == Direction.both) = true
        · rw [if_pos hup] at heq
          simp only [Option.some.injEq, Prod.mk.injEq] at heq
          rcases heq with ⟨hdb, -⟩
          rw [build_upward_db] at hdb
          subst hdb
          exact Or.inl he
        · rw [if_neg hup] at heq
          simp only [Option.some.injEq, Prod.mk.injEq] at heq
          rcases heq with ⟨hdb, -⟩
          subst hdb
          exact Or.inl he
  · intro env D fuel s parent d h
    rw [build_downward_tree, if_pos h]

/-- A one-subsidiary registry and a rooted store, for the C3 witness. -/
def w3env : TreeEnv :=
  { get_charity_subsidiaries := fun n =>
      if n == "C1" then [{ subsidiaryName := some "Sub", companyNumber := some "K1" }] else []
    search_charities := fun _ _ => []
    get_full_charity_details := fun _ => none }

def w3root : Entity := { id := 0, batch_id := 7, original_name := "Root", charity_number := some "C1" }

def w3db : BuildDb := { entities := [w3root], edges := [], next_entity_id := 1 }

def w3res : BuildDb × TreeResult :=
  (build_tree_for_entity w3env w3db 0 2 Direction.down).getD ({}, { root_id := 0 })

def w3child : Entity :=
  (w3res.1.entities.getD 1 { id := 99, batch_id := 99, original_name := "none" })

/-- Witness for C3: the concrete run creates the subsidiary at level 1,
within the bound 2. -/
theorem claim3_witness :
    build_tree_for_entity w3env w3db 0 2 Direction.down = some (w3res.1, w3res.2) ∧
    w3child ∈ w3res.1.entities ∧
    (w3child ∈ w3db.entities ∨ (1 ≤ w3child.ownership_level ∧ w3child.ownership_level ≤ 2)) :=
  ⟨rfl, by decide,
   claim3_depth_bound.1 w3env w3db 0 2 Direction.down w3res.1 w3res.2 rfl w3child (by decide)⟩

/-! ## The per-record loop: bookkeeping lemmas (claims C5, C7, C8) -/

theorem run_records_processed (env : ResolveEnv) (u : Bool) (es : List Entity) (s : LoopState) :
    (run_records env u s es).processed = s.processed + es.length := by
  induction es generalizing s with
  | nil => simp [run_records]
  | cons e es ih =>
    have hstep : (process_record env u s e).processed = s.processed + 1 := rfl
    simp only [run_records, List.foldl_cons] at *
    rw [ih, hstep, List.length_cons]
    omega

theorem run_records_already (env : ResolveEnv) (u : Bool) (es : List Entity) (s : LoopState) :
    (run_records env u s es).already_matched = s.already_matched := by
  induction es generalizing s with
  | nil => rfl
  | cons e es ih =>
    simp only [run_records, List.foldl_cons] at *
    rw [ih]
    rfl

theorem run_records_total (env : ResolveEnv) (u : Bool) (es : List Entity) (s : LoopState) :
    (run_records env u s es).batch.total_records = s.batch.total_records := by
  induction es generalizing s with
  | nil => rfl
  | cons e es ih =>
    simp only [run_records, List.foldl_cons] at *
    rw [ih]
    rfl

/-- After at least one iteration, the batch row's counters are in sync with
the loop counters (the `finally` block writes them every iteration). -/
theorem run_records_sync (env : ResolveEnv) (u : Bool) (es : List Entity) (s : LoopState)
    (hne : es ≠ []) :
    (run_records env u s es).batch.processed_records
      = (run_records env u s es).already_matched + (run_records env u s es).processed ∧
    (run_records env u s es).batch.matched_records = (run_records env u s es).matched ∧
    (run_records env u s es).batch.failed_records = (run_records env u s es).failed := by
  induction es generalizing s with
  | nil => exact absurd rfl hne
  | cons e es ih =>
    rcases es with _ | ⟨e2, es⟩
    · exact ⟨rfl, rfl, rfl⟩
    · exact ih (process_record env u s e) (by simp)

/-- The conservation invariant of the loop state: the matched counter is the
already-matched offset plus the matched outcomes, processed tracks the done
list, and each record bumped at most one of matched/failed. -/
def ConsInv (s : LoopState) : Prop :=
  s.matched = s.already_matched
    + s.done.countP (fun x => x.resolution_status == ResolutionStatus.matched) ∧
  s.processed = s.done.length ∧
  s.matched + s.failed ≤ s.already_matched + s.processed

theorem process_record_inv (env : ResolveEnv) (u : Bool) (s : LoopState) (e : Entity)
    (h : ConsInv s) : ConsInv (process_record env u s e) := by
  obtain ⟨h1, h2, h3⟩ := h
  unfold process_record
  rcases hres : (resolve_entity env u e s.rdb).2 with m | e'
  · refine ⟨?_, ?_, ?_⟩
    · simp only [hres, List.countP_append, List.countP_cons, List.countP_nil]
      simp [h1]
    · simp [hres, h2]
    · simp only [hres]
      omega
  · by_cases hm : e'.resolution_status = ResolutionStatus.matched
    · refine ⟨?_, ?_, ?_⟩
      · simp only [hres, if_pos hm, List.countP_append, List.countP_cons, List.countP_nil]
        simp [h1, hm]
        omega
      · simp [hres, h2]
      · simp only [hres, if_pos hm]
        omega
    · refine ⟨?_, ?_, ?_⟩
      · simp only [hres, if_neg hm, List.countP_append, List.countP_cons, List.countP_nil]
        simp [h1, hm]
      · simp [hres, h2]
      · simp only [hres, if_neg hm]
        omega

theorem run_records_inv (env : ResolveEnv) (u : Bool) (es : List Entity) (s : LoopState)
    (h : ConsInv s) : ConsInv (run_records env u s es) := by
  induction es generalizing s with
  | nil => exact h
  | cons e es ih =>
    simp only [run_records, List.foldl_cons] at *
    exact ih _ (process_record_inv env u s e h)

/-- Disjoint Boolean predicates count at most the length. -/
theorem countP_disjoint_le {α : Type} (l : List α) (p q : α → Bool)
    (h : ∀ a, p a = true → q a = true → False) :
    l.countP p + l.countP q ≤ l.length := by
  induction l with
  | nil => simp
  | cons a l ih =>
    simp only [List.countP_cons, List.length_cons]
    have hb : ((if p a = true then 1 else 0) : Nat) + (if q a = true then 1 else 0) ≤ 1 := by
      by_cases hp : p a = true
      · have hq : ¬ q a = true := fun hq => h a hp hq
        simp [hp, hq]
      · by_cases hq : q a = true
        · simp [hp, hq]
        · simp [hp, hq]
    omega

theorem matched_not_eligible (st : ResolutionStatus) :
    (st == ResolutionStatus.matched) = true → eligibleStatus st = true → False := by
  cases st <;> simp [eligibleStatus]

/-- Full characterization of the exit paths of `process_batch`. -/
theorem process_batch_cases (env : ResolveEnv) (db_fail : Option String)
    (batches : List EntityBatch) (all_entities : List Entity) (rdb : ResDb)
    (batch_id : Nat) (use_ai : Bool) (r : BatchRun)
    (h : process_batch env db_fail batches all_entities rdb batch_id use_ai = some r) :
    let batch_entities := all_entities.filter (fun e => e.batch_id == batch_id)
    let eligible := batch_entities.filter (fun e => eligibleStatus e.resolution_status)
    let already := batch_entities.countP (fun e => e.resolution_status == ResolutionStatus.matched)
    ∃ batch0, batches.find? (fun b => b.id == batch_id) = some batch0 ∧
      ((∃ m, db_fail = some m ∧ r.batch.status = .failed ∧
          r.batch.error_message = some m ∧ r.outcome = .error m) ∨
       (db_fail = none ∧ eligible = [] ∧ r.batch.status = .completed ∧ r.outcome = .ok ()) ∨
       (db_fail = none ∧ eligible ≠ [] ∧
         (let s0 : LoopState :=
            { batch := { batch0 with
                status := .processing
                processing_started := true
                total_records := batch_entities.length }
              rdb := rdb
              processed := 0
              matched := already
              failed := 0
              already_matched := already
              done := [] }
          let s := run_records env use_ai s0 eligible
          r.batch = { s.batch with
            status := deriveBatchStatus s.failed s.matched
            processing_completed := true } ∧
          r.entities = s.done ∧ r.outcome = .ok ()))) := by
  intro batch_entities eligible already
  unfold process_batch at h
  rcases hf : batches.find? (fun b => b.id == batch_id) with _ | batch0
  · rw [hf] at h
    exact absurd h (by simp)
  · rw [hf] at h
    dsimp only at h
    refine ⟨batch0, hf, ?_⟩
    rcases db_fail with _ | m
    · dsimp only at h
      split at h
      · rename_i r1 hbody
        simp only [Option.some.injEq] at h
        subst h
        split at hbody
        · rename_i hemp
          simp only [Except.ok.injEq] at hbody
          subst hbody
          exact Or.inr (Or.inl ⟨rfl, List.isEmpty_iff.mp hemp, rfl, rfl⟩)
        · rename_i hemp
          simp only [Except.ok.injEq] at hbody
          subst hbody
          refine Or.inr (Or.inr ⟨rfl, ?_, rfl, rfl, rfl⟩)
          intro hnil
          have hnil2 : (List.filter (fun e => eligibleStatus e.resolution_status)
              (List.filter (fun e => e.batch_id == batch_id) all_entities)) = [] := hnil
          rw [hnil2] at hemp
          simp at hemp
      · rename_i m2 hbody
        split at hbody
        · simp at hbody
        · simp at hbody
    · dsimp only at h
      simp only [Option.some.injEq] at h
      subst h
      exact Or.inl ⟨m, rfl, rfl, rfl, rfl⟩

/-! ## Claim C7: every exit of process_batch is terminal -/

/-- C7: `process_batch` never ends -- normally or by exception -- with the
batch left at `processing`: every exit path sets `completed`, `failed` or
`partial`, and an exception escaping the run sets `failed` and records the
error message before re-raising.  (A `none` result is the unknown-batch-id
`ValueError`, raised before the batch ever enters `processing`.) -/
theorem claim7_terminal_status (env : ResolveEnv) (db_fail : Option String)
    (batches : List EntityBatch) (all_entities : List Entity) (rdb : ResDb)
    (batch_id : Nat) (use_ai : Bool) (r : BatchRun)
    (h : process_batch env db_fail batches all_entities rdb batch_id use_ai = some r) :
    (r.batch.status = .completed ∨ r.batch.status = .failed ∨ r.batch.status = .partialRes) ∧
    (∀ m, r.outcome = .error m →
      r.batch.status = .failed ∧ r.batch.error_message = some m) := by
  rcases process_batch_cases env db_fail batches all_entities rdb batch_id use_ai r h
    with ⟨batch0, -, hcase⟩
  rcases hcase with ⟨m, -, hst, herr, hout⟩ | ⟨-, -, hst, hout⟩ | ⟨-, -, hb, -, hout⟩
  · refine ⟨Or.inr (Or.inl hst), ?_⟩
    intro m' hm'
    rw [hout] at hm'
    cases hm'
    exact ⟨hst, herr⟩
  · refine ⟨Or.inl hst, ?_⟩
    intro m' hm'
    rw [hout] at hm'
    cases hm'
  · refine ⟨?_, ?_⟩
    · rw [hb]
      unfold deriveBatchStatus
      dsimp only
      split
      · exact Or.inr (Or.inl rfl)
      · split
        · exact Or.inr (Or.inr rfl)
        · exact Or.inl rfl
    · intro m' hm'
      rw [hout] at hm'
      cases hm'

/-- A batch and an environment for the C7 witness: the in-try entity query
raises, the outer handler records the failure and re-raises. -/
def w7env : ResolveEnv :=
  { get_full_charity_details := fun _ => .ok none
    search_charities := fun _ _ => .ok []
    calculate_similarity := fun _ _ => 0
    openai := none }

def w7batch : EntityBatch := { id := 7 }

def w7run : BatchRun :=
  (process_batch w7env (some "db down") [w7batch] [] {} 7 true).getD
    { batch := w7batch, entities := [], rdb := {}, outcome := .ok () }

theorem claim7_witness :
    process_batch w7env (some "db down") [w7batch] [] {} 7 true = some w7run ∧
    w7run.outcome = .error "db down" ∧
    w7run.batch.status = .failed ∧
    w7run.batch.error_message = some "db down" :=
  ⟨rfl, rfl,
   (claim7_terminal_status w7env (some "db down") [w7batch] [] {} 7 true w7run rfl).2
     "db down" rfl⟩

/-! ## Final-state counters of process_batch (claims C5 and C8) -/

theorem countP_not_split {α : Type} (l : List α) (p : α → Bool) :
    l.length = l.countP p + l.countP (fun a => !(p a)) := by
  induction l with
  | nil => rfl
  | cons a l ih =>
    simp only [List.countP_cons, List.length_cons]
    by_cases h : p a = true
    · simp only [h]
      simp
      omega
    · simp only [h]
      simp
      omega

/-- When the per-record loop ran over a nonempty eligible list, the final
batch row reports loop-consistent counters: status derived from them,
total set to the batch size, processed = already-matched + eligible count,
the conservation equation, and processed bounded by total. -/
theorem process_batch_counters (env : ResolveEnv) (use_ai : Bool)
    (batches : List EntityBatch) (all_entities : List Entity) (rdb : ResDb)
    (batch_id : Nat) (r : BatchRun)
    (h : process_batch env none batches all_entities rdb batch_id use_ai = some r)
    (hne : (all_entities.filter (fun e => e.batch_id == batch_id)).filter
      (fun e => eligibleStatus e.resolution_status) ≠ []) :
    r.batch.status = deriveBatchStatus r.batch.failed_records r.batch.matched_records ∧
    r.batch.total_records = (all_entities.filter (fun e => e.batch_id == batch_id)).length ∧
    r.batch.processed_records
      = (all_entities.filter (fun e => e.batch_id == batch_id)).countP
          (fun e => e.resolution_status == ResolutionStatus.matched)
        + ((all_entities.filter (fun e => e.batch_id == batch_id)).filter
            (fun e => eligibleStatus e.resolution_status)).length ∧
    r.batch.processed_records = r.batch.matched_records
      + r.entities.countP (fun e => !(e.resolution_status == ResolutionStatus.matched)) ∧
    r.batch.processed_records ≤ r.batch.total_records := by
  rcases process_batch_cases env none batches all_entities rdb batch_id use_ai r h
    with ⟨batch0, -, hcase⟩
  rcases hcase with ⟨m, hm, -⟩ | ⟨-, hemp, -, -⟩ | ⟨-, -, hb, hdone, -⟩
  · exact absurd hm (by simp)
  · exact absurd hemp hne
  · have already_eq : True := trivial
    let elig : List Entity := List.filter (fun e => eligibleStatus e.resolution_status)
        (List.filter (fun e => e.batch_id == batch_id) all_entities)
    let already : Nat := List.countP (fun e => e.resolution_status == ResolutionStatus.matched)
        (List.filter (fun e => e.batch_id == batch_id) all_entities)
    let b1 : EntityBatch := { batch0 with
      status := .processing
      processing_started := true
      total_records := (List.filter (fun e => e.batch_id == batch_id) all_entities).length }
    let s0 : LoopState :=
      { batch := b1
        rdb := rdb
        processed := 0
        matched := already
        failed := 0
        already_matched := already
        done := [] }
    have hb2 : r.batch = { (run_records env use_ai s0 elig).batch with
        status := deriveBatchStatus (run_records env use_ai s0 elig).failed
          (run_records env use_ai s0 elig).matched
        processing_completed := true } := hb
    have hdone2 : r.entities = (run_records env use_ai s0 elig).done := hdone
    have hne2 : elig ≠ [] := hne
    obtain ⟨hsp, hsm, hsf⟩ := run_records_sync env use_ai elig s0 hne2
    have hproc := run_records_processed env use_ai elig s0
    have halready := run_records_already env use_ai elig s0
    have htot := run_records_total env use_ai elig s0
    obtain ⟨hi1, hi2, hi3⟩ := run_records_inv env use_ai elig s0 ⟨by simp, rfl, by simp⟩
    have e1 : s0.already_matched = already := rfl
    have e2 : s0.processed = 0 := rfl
    have e3 : s0.batch.total_records
        = (List.filter (fun e => e.batch_id == batch_id) all_entities).length := rfl
    have hsplit : (run_records env use_ai s0 elig).done.length
        = (run_records env use_ai s0 elig).done.countP
            (fun e => e.resolution_status == ResolutionStatus.matched)
          + (run_records env use_ai s0 elig).done.countP
            (fun e => !(e.resolution_status == ResolutionStatus.matched)) :=
      countP_not_split _ _
    have e4 : already = List.countP (fun e => e.resolution_status == ResolutionStatus.matched)
        (List.filter (fun e => e.batch_id == batch_id) all_entities) := rfl
    have e5 : elig.length = (List.filter (fun e => eligibleStatus e.resolution_status)
        (List.filter (fun e => e.batch_id == batch_id) all_entities)).length := rfl
    refine ⟨?_, ?_, ?_, ?_, ?_⟩
    · rw [hb2]
      dsimp only
      rw [hsm, hsf]
    · rw [hb2]
      dsimp only
      rw [htot, e3]
    · rw [hb2]
      dsimp only
      rw [hsp, halready, hproc, e1, e2]
      omega
    · rw [hb2, hdone2]
      dsimp only
      rw [hsp, hsm, halready, e1, hi1, halready, e1, hi2, hsplit]
      omega
    · rw [hb2]
      dsimp only
      rw [hsp, htot, halready, hproc, e1, e2, e3]
      have hdisj := countP_disjoint_le (List.filter (fun e => e.batch_id == batch_id) all_entities)
        (fun e => e.resolution_status == ResolutionStatus.matched)
        (fun e => eligibleStatus e.resolution_status)
        (fun a => matched_not_eligible a.resolution_status)
      have hlen : elig.length = List.countP (fun e => eligibleStatus e.resolution_status)
          (List.filter (fun e => e.batch_id == batch_id) all_entities) :=
        (List.countP_eq_length_filter _ _).symm
      omega

/-! ## Claim C5: the batch status derivation -/

/-- C5 counterexample: one record fails with an exception and the other ends
`no_match` (so "some but not all" records failed, per the claim's reading),
yet the code sets the batch `FAILED` -- its condition is
`failed > 0 and matched == 0`, not "all failed". -/
def cx5env : ResolveEnv :=
  { get_full_charity_details := fun n => if n == "X" then .error "boom" else .ok none
    search_charities := fun _ _ => .ok []
    calculate_similarity := fun _ _ => 0
    openai := none }

def cx5entA : Entity :=
  { id := 1, batch_id := 5, original_name := "Alpha", charity_number := some "X" }

def cx5entB : Entity := { id := 2, batch_id := 5, original_name := "zzz" }

def cx5batch : EntityBatch := { id := 5 }

def cx5run : BatchRun :=
  (process_batch cx5env none [cx5batch] [cx5entA, cx5entB] {} 5 false).getD
    { batch := cx5batch, entities := [], rdb := {}, outcome := .ok () }

theorem claim5_counterexample :
    process_batch cx5env none [cx5batch] [cx5entA, cx5entB] {} 5 false = some cx5run ∧
    cx5run.batch.processed_records = 2 ∧
    cx5run.batch.failed_records = 1 ∧
    cx5run.batch.matched_records = 0 ∧
    cx5run.batch.status = .failed :=
  ⟨rfl, by decide, by decide, by decide, by decide⟩

/-- C5 as amended: zero pending-eligible records give `completed`
immediately; otherwise the final status is derived from the final counters
as `failed > 0 and matched = 0` yielding `failed` (the matched counter
includes records already matched before the run), `failed > 0 and
matched > 0` yielding `partial`, and `failed = 0` yielding `completed`
(see `deriveBatchStatus`); a record that errors counts as failed, but a
record ending `no_match`, `multiple_matches` or `manual_review` does not. -/
theorem claim5_amended (env : ResolveEnv) (use_ai : Bool)
    (batches : List EntityBatch) (all_entities : List Entity) (rdb : ResDb)
    (batch_id : Nat) (r : BatchRun)
    (h : process_batch env none batches all_entities rdb batch_id use_ai = some r) :
    ((all_entities.filter (fun e => e.batch_id == batch_id)).filter
        (fun e => eligibleStatus e.resolution_status) = [] →
      r.batch.status = .completed) ∧
    ((all_entities.filter (fun e => e.batch_id == batch_id)).filter
        (fun e => eligibleStatus e.resolution_status) ≠ [] →
      r.batch.status = deriveBatchStatus r.batch.failed_records r.batch.matched_records) := by
  constructor
  · intro hemp
    rcases process_batch_cases env none batches all_entities rdb batch_id use_ai r h
      with ⟨batch0, -, hcase⟩
    rcases hcase with ⟨m, hm, -⟩ | ⟨-, -, hst, -⟩ | ⟨-, hne, -⟩
    · exact absurd hm (by simp)
    · exact hst
    · exact absurd hemp hne
  · intro hne
    exact (process_batch_counters env use_ai batches all_entities rdb batch_id r h hne).1

def w5env : ResolveEnv :=
  { get_full_charity_details := fun _ => .ok none
    search_charities := fun _ _ => .ok []
    calculate_similarity := fun _ _ => 0
    openai := none }

def w5batch : EntityBatch := { id := 11 }

def w5run : BatchRun :=
  (process_batch w5env none [w5batch] [] {} 11 true).getD
    { batch := w5batch, entities := [], rdb := {}, outcome := .ok () }

/-- Witness for C5: a batch with zero eligible records completes
immediately. -/
theorem claim5_witness :
    process_batch w5env none [w5batch] [] {} 11 true = some w5run ∧
    w5run.batch.status = .completed :=
  ⟨rfl,
   (claim5_amended w5env true [w5batch] [] {} 11 w5run rfl).1 (by decide)⟩

/-! ## Claim C8: counter bookkeeping -/

/-- C8 counterexample: a single record that resolves to `no_match` is
processed but increments neither the matched nor the failed counter,
refuting "each processed record increments exactly one of the matched or
failed counters". -/
def cx8env : ResolveEnv :=
  { get_full_charity_details := fun _ => .ok none
    search_charities := fun _ _ => .ok []
    calculate_similarity := fun _ _ => 0
    openai := none }

def cx8ent : Entity := { id := 1, batch_id := 6, original_name := "zzz" }

def cx8batch : EntityBatch := { id := 6 }

def cx8run : BatchRun :=
  (process_batch cx8env none [cx8batch] [cx8ent] {} 6 false).getD
    { batch := cx8batch, entities := [], rdb := {}, outcome := .ok () }

theorem claim8_counterexample :
    process_batch cx8env none [cx8batch] [cx8ent] {} 6 false = some cx8run ∧
    cx8run.batch.processed_records = 1 ∧
    cx8run.batch.matched_records = 0 ∧
    cx8run.batch.failed_records = 0 :=
  ⟨rfl, by decide, by decide, by decide⟩

/-- C8 as amended: each processed record increments at most one of the
matched/failed counters (records ending in other statuses increment
neither, see the counterexample); at every point of the loop the counters
obey `matched + failed ≤ already_matched + processed` and the conservation
equation `processed_records = matched_records + (non-matched outcomes)`,
and `processed_records` never exceeds `total_records`, during the loop and
at completion of `process_batch`. -/
theorem claim8_amended (env : ResolveEnv) (use_ai : Bool) (batch : EntityBatch)
    (rdb : ResDb) (all_in_batch : List Entity) (k : Nat) :
    let already := all_in_batch.countP (fun e => e.resolution_status == ResolutionStatus.matched)
    let eligible := all_in_batch.filter (fun e => eligibleStatus e.resolution_status)
    let b1 : EntityBatch := { batch with total_records := all_in_batch.length }
    let s0 : LoopState :=
      { batch := b1
        rdb := rdb
        processed := 0
        matched := already
        failed := 0
        already_matched := already
        done := [] }
    let s := run_records env use_ai s0 (eligible.take k)
    (s.matched + s.failed ≤ already + (eligible.take k).length) ∧
    (s.matched = already
      + s.done.countP (fun e => e.resolution_status == ResolutionStatus.matched)) ∧
    (eligible.take k ≠ [] →
      s.batch.processed_records = already + (eligible.take k).length ∧
      s.batch.processed_records = s.batch.matched_records
        + s.done.countP (fun e => !(e.resolution_status == ResolutionStatus.matched)) ∧
      s.batch.processed_records ≤ s.batch.total_records) ∧
    (∀ batches all_entities r,
      process_batch env none batches all_entities rdb batch.id use_ai = some r →
      (all_entities.filter (fun e => e.batch_id == batch.id)).filter
        (fun e => eligibleStatus e.resolution_status) ≠ [] →
      r.batch.processed_records = r.batch.matched_records
        + r.entities.countP (fun e => !(e.resolution_status == ResolutionStatus.matched)) ∧
      r.batch.processed_records ≤ r.batch.total_records) := by
  intro already eligible b1 s0 s
  have es : s = run_records env use_ai s0 (eligible.take k) := rfl
  rw [es]
  obtain ⟨hi1, hi2, hi3⟩ := run_records_inv env use_ai (eligible.take k) s0 ⟨by simp, rfl, by simp⟩
  have hproc := run_records_processed env use_ai (eligible.take k) s0
  have halready := run_records_already env use_ai (eligible.take k) s0
  have htot := run_records_total env use_ai (eligible.take k) s0
  have e1 : s0.already_matched = already := rfl
  have e2 : s0.processed = 0 := rfl
  have e3 : s0.batch.total_records = all_in_batch.length := rfl
  have hsplit : (run_records env use_ai s0 (eligible.take k)).done.length
      = (run_records env use_ai s0 (eligible.take k)).done.countP
          (fun e => e.resolution_status == ResolutionStatus.matched)
        + (run_records env use_ai s0 (eligible.take k)).done.countP
          (fun e => !(e.resolution_status == ResolutionStatus.matched)) :=
    countP_not_split _ _
  refine ⟨?_, ?_, ?_, ?_⟩
  · have : s.already_matched = already := by rw [halready, e1]
    omega
  · have : s.already_matched = already := by rw [halready, e1]
    omega
  · intro hne
    obtain ⟨hsp, hsm, hsf⟩ := run_records_sync env use_ai (eligible.take k) s0 hne
    have ha : s.already_matched = already := by rw [halready, e1]
    have hp : s.processed = (eligible.take k).length := by rw [hproc, e2]; omega
    refine ⟨?_, ?_, ?_⟩
    · omega
    · omega
    · have hb : s.batch.total_records = all_in_batch.length := by rw [htot, e3]
      have hle : already + eligible.length ≤ all_in_batch.length := by
        have hdisj := countP_disjoint_le all_in_batch
          (fun e => e.resolution_status == ResolutionStatus.matched)
          (fun e => eligibleStatus e.resolution_status)
          (fun a => matched_not_eligible a.resolution_status)
        have hlen : eligible.length = all_in_batch.countP
            (fun e => eligibleStatus e.resolution_status) :=
          (List.countP_eq_length_filter _ _).symm
        omega
      have htk : (eligible.take k).length ≤ eligible.length := by
        simp
      omega
  · intro batches all_entities r hr hne
    have := process_batch_counters env use_ai batches all_entities rdb batch.id r hr hne
    exact ⟨this.2.2.2.1, this.2.2.2.2⟩

def w8env : ResolveEnv :=
  { get_full_charity_details := fun _ => .ok none
    search_charities := fun _ _ => .ok []
    calculate_similarity := fun _ _ => 0
    openai := none }

def w8ent : Entity := { id := 1, batch_id := 8, original_name := "zzz" }

def w8batch : EntityBatch := { id := 8 }

def w8s0 : LoopState :=
  { batch := { w8batch with total_records := 1 }
    rdb := {}
    processed := 0
    matched := 0
    failed := 0
    already_matched := 0
    done := [] }

/-- Witness for C8: one eligible record, one loop step; the prefix bound
holds at a concrete input. -/
theorem claim8_witness :
    (([w8ent].filter (fun e => eligibleStatus e.resolution_status)).take 1 ≠ []) ∧
    (run_records w8env false w8s0
        (([w8ent].filter (fun e => eligibleStatus e.resolution_status)).take 1)).batch.processed_records
      ≤ (run_records w8env false w8s0
        (([w8ent].filter (fun e => eligibleStatus e.resolution_status)).take 1)).batch.total_records :=
  ⟨by decide,
   ((claim8_amended w8env false w8batch {} [w8ent] 1).2.2.1 (by decide)).2.2⟩

/-! ## Claim C4: idempotence of tree building

The refutation: a subsidiary whose registry record carries no company
number is never looked up (the get-or-create lookup is guarded by the
number's truthiness), so a second run of `build_tree_for_entity` creates a
second provisional record and a second edge for it.  The amended claim
proves run-level idempotence once every subsidiary returned by the
registry carries a truthy company number. -/

def cx4sub : SubsidiaryRaw := { subsidiaryName := some "Community Shop Trading", companyNumber := none }

def cx4env : TreeEnv :=
  { get_charity_subsidiaries := fun _ => [cx4sub]
    search_charities := fun _ _ => []
    get_full_charity_details := fun _ => none }

def cx4root : Entity := { id := 0, batch_id := 1, original_name := "Root Charity", charity_number := some "999999" }

def cx4db : BuildDb := { entities := [cx4root], edges := [], next_entity_id := 1 }

def cx4run1 : BuildDb × TreeResult :=
  (build_tree_for_entity cx4env cx4db 0 2 .down).getD ({}, { root_id := 0 })

def cx4run2 : BuildDb × TreeResult :=
  (build_tree_for_entity cx4env cx4run1.1 0 2 .down).getD ({}, { root_id := 0 })

/-- C4 counterexample: running `build_tree_for_entity` twice on the same
root with the same registry data (one subsidiary without a company number)
leaves two edges after the second run where the first run left one --
refuting `|edges after 2nd run| = |edges after 1st run|` as stated. -/
theorem claim4_counterexample :
    cx4run1.1.edges.length = 1 ∧ cx4run2.1.edges.length = 2 := by decide

/-- A successful `find?` hit survives appending further rows. -/
theorem find?_append_some {α : Type} {p : α → Bool} {l1 : List α} {x : α} (l2 : List α)
    (h : l1.find? p = some x) : (l1 ++ l2).find? p = some x := by
  rw [List.find?_append, h]
  rfl

/-- A row appended right after an unsuccessful scan is the first hit of
the extended scan. -/
theorem find?_append_cons {α : Type} {p : α → Bool} {l1 : List α} {x : α} (l2 : List α)
    (h1 : l1.find? p = none) (hx : p x = true) : (l1 ++ x :: l2).find? p = some x := by
  rw [List.find?_append, h1, List.find?_cons_of_pos _ hx]
  rfl

/-- Chaining of list extensions. -/
theorem pref_trans {α : Type} {l m r : List α}
    (h1 : ∃ e, r = m ++ e) (h2 : ∃ a, m = l ++ a) : ∃ b, r = l ++ b := by
  obtain ⟨e, he⟩ := h1
  obtain ⟨a, ha⟩ := h2
  exact ⟨a ++ e, by rw [he, ha, List.append_assoc]⟩

/-- A `contains` miss refutes membership. -/
theorem not_mem_of_contains_false {l : List String} {a : String}
    (h : l.contains a = false) : a ∉ l := by
  intro hm
  have h2 : l.contains a = true := List.elem_iff.mpr hm
  rw [h] at h2
  cases h2

/-- `_create_ownership` either returns the stored edge untouched or appends
a fresh edge carrying exactly the requested endpoint pair. -/
theorem create_ownership_cases (db : BuildDb) (a b : Nat) (t src : String)
    (dsc : Option String) (pct : Option Rat) :
    (∃ ed, db.edges.find? (fun o => o.owner_id == a && o.owned_id == b) = some ed ∧
       create_ownership db a b t src dsc pct = (ed, db)) ∨
    (∃ ed, create_ownership db a b t src dsc pct = (ed, { db with edges := db.edges ++ [ed] }) ∧
       db.edges.find? (fun o => o.owner_id == a && o.owned_id == b) = none ∧
       ed.owner_id = a ∧ ed.owned_id = b) := by
  rcases hf : db.edges.find? (fun o => o.owner_id == a && o.owned_id == b) with _ | ed
  · right
    refine ⟨{ owner_id := a
              owned_id := b
              ownership_type := t
              ownership_percentage := pct
              relationship_description := dsc
              source := src
              verified := true }, ?_, hf, rfl, rfl⟩
    unfold create_ownership
    rw [hf]
  · left
    refine ⟨ed, hf, ?_⟩
    unfold create_ownership
    rw [hf]

/-- `_get_or_create_subsidiary_entity` with a truthy company number either
returns the first stored row keyed by `(batch_id, company_number)`
untouched, or appends a fresh provisional record carrying exactly that
key (and no charity number). -/
theorem goc_sub_cases (db : BuildDb) (parent : Entity) (nm : String) (cn : Option String)
    (lvl : Nat) (hcn : optTruthy cn = true) :
    (∃ e, db.entities.find? (fun x => x.batch_id == parent.batch_id && x.company_number == cn) = some e ∧
       get_or_create_subsidiary_entity db parent nm cn lvl = (e, db)) ∨
    (∃ c, get_or_create_subsidiary_entity db parent nm cn lvl =
            (c, { db with entities := db.entities ++ [c], next_entity_id := db.next_entity_id + 1 }) ∧
       db.entities.find? (fun x => x.batch_id == parent.batch_id && x.company_number == cn) = none ∧
       c.batch_id = parent.batch_id ∧ c.company_number = cn ∧ c.charity_number = none) := by
  rcases hf : db.entities.find? (fun x => x.batch_id == parent.batch_id && x.company_number == cn) with _ | e
  · right
    refine ⟨{ id := db.next_entity_id
              batch_id := parent.batch_id
              original_name := nm
              entity_type := some .company
              resolved_name := some nm
              company_number := cn
              parent_entity_id := some parent.id
              ownership_level := lvl
              resolution_status := .matched
              resolution_confidence := some 1
              resolution_method := some "subsidiary_discovery" }, ?_, hf, rfl, rfl, rfl⟩
    unfold get_or_create_subsidiary_entity
    rw [if_pos hcn, hf]
  · left
    refine ⟨e, hf, ?_⟩
    unfold get_or_create_subsidiary_entity
    rw [if_pos hcn, hf]

/-- `_get_or_create_related_charity` either returns the first stored row
keyed by `(batch_id, charity_number)` untouched, or creates nothing when
the details fetch comes back empty, or appends a fresh record carrying
exactly that key. -/
theorem gocr_cases (env : TreeEnv) (db : BuildDb) (parent : Entity) (chn nm : String)
    (lvl : Nat) :
    (∃ e, db.entities.find? (fun x => x.batch_id == parent.batch_id && x.charity_number == some chn) = some e ∧
       get_or_create_related_charity env db parent chn nm lvl = (some e, db)) ∨
    (db.entities.find? (fun x => x.batch_id == parent.batch_id && x.charity_number == some chn) = none ∧
       env.get_full_charity_details chn = none ∧
       get_or_create_related_charity env db parent chn nm lvl = (none, db)) ∨
    (∃ c, get_or_create_related_charity env db parent chn nm lvl =
            (some c, { db with entities := db.entities ++ [c], next_entity_id := db.next_entity_id + 1 }) ∧
       db.entities.find? (fun x => x.batch_id == parent.batch_id && x.charity_number == some chn) = none ∧
       c.batch_id = parent.batch_id ∧ c.charity_number = some chn) := by
  rcases hf : db.entities.find? (fun x => x.batch_id == parent.batch_id && x.charity_number == some chn) with _ | e
  · rcases hd : env.get_full_charity_details chn with _ | raw
    · refine Or.inr (Or.inl ⟨hf, rfl, ?_⟩)
      unfold get_or_create_related_charity
      rw [hf, hd]
    · refine Or.inr (Or.inr ⟨{ id := db.next_entity_id
                               batch_id := parent.batch_id
                               original_name := nm
                               entity_type := some .charity
                               resolved_name := (parse_charity_data raw).name
                               charity_number := some chn
                               charity_status := (parse_charity_data raw).status
                               charity_registration_date := (parse_charity_data raw).registration_date
                               charity_activities := (parse_charity_data raw).activities
                               charity_contact_email := (parse_charity_data raw).contact_email
                               charity_website := (parse_charity_data raw).website
                               charity_address := (parse_charity_data raw).address
                               latest_income := (parse_charity_data raw).latest_income
                               latest_expenditure := (parse_charity_data raw).latest_expenditure
                               latest_financial_year_end := (parse_charity_data raw).financial_year_end
                               parent_entity_id := some parent.id
                               ownership_level := lvl
                               resolution_status := .matched
                               resolution_confidence := some 1
                               resolution_method := some "related_discovery"
                               enriched_data := some { trustees := (parse_charity_data raw).trustees
                                                       subsidiaries := (parse_charity_data raw).subsidiaries } }, ?_, hf, rfl, rfl⟩)
      unfold get_or_create_related_charity
      rw [hf, hd]
  · refine Or.inl ⟨e, hf, ?_⟩
    unfold get_or_create_related_charity
    rw [hf]

/-- `_get_or_create_subsidiary_entity` only ever appends to the entity
table and never touches the edge table. -/
theorem goc_sub_db (db : BuildDb) (parent : Entity) (nm : String) (cn : Option String)
    (lvl : Nat) :
    (∃ a, (get_or_create_subsidiary_entity db parent nm cn lvl).2.entities = db.entities ++ a) ∧
    (get_or_create_subsidiary_entity db parent nm cn lvl).2.edges = db.edges := by
  rcases hf : (if optTruthy cn then
      db.entities.find? (fun x => x.batch_id == parent.batch_id && x.company_number == cn)
    else none) with _ | e
  · simp only [get_or_create_subsidiary_entity]
    rw [hf]
    exact ⟨⟨_, rfl⟩, rfl⟩
  · simp only [get_or_create_subsidiary_entity]
    rw [hf]
    exact ⟨⟨[], (List.append_nil _).symm⟩, rfl⟩

/-- `_get_or_create_related_charity` only ever appends to the entity table
and never touches the edge table. -/
theorem gocr_db (env : TreeEnv) (db : BuildDb) (parent : Entity) (chn nm : String)
    (lvl : Nat) :
    (∃ a, (get_or_create_related_charity env db parent chn nm lvl).2.entities = db.entities ++ a) ∧
    (get_or_create_related_charity env db parent chn nm lvl).2.edges = db.edges := by
  rcases hf : db.entities.find? (fun x => x.batch_id == parent.batch_id && x.charity_number == some chn) with _ | e
  · rcases hd : env.get_full_charity_details chn with _ | raw
    · simp only [get_or_create_related_charity]
      rw [hf, hd]
      exact ⟨⟨[], (List.append_nil _).symm⟩, rfl⟩
    · simp only [get_or_create_related_charity]
      rw [hf, hd]
      exact ⟨⟨_, rfl⟩, rfl⟩
  · simp only [get_or_create_related_charity]
    rw [hf]
    exact ⟨⟨[], (List.append_nil _).symm⟩, rfl⟩

/-- `_create_ownership` only ever appends to the edge table. -/
theorem create_ownership_edges (db : BuildDb) (a b : Nat) (t src : String)
    (dsc : Option String) (pct : Option Rat) :
    ∃ x, (create_ownership db a b t src dsc pct).2.edges = db.edges ++ x := by
  rcases hf : db.edges.find? (fun o => o.owner_id == a && o.owned_id == b) with _ | ed
  · simp only [create_ownership]
    rw [hf]
    exact ⟨_, rfl⟩
  · simp only [create_ownership]
    rw [hf]
    exact ⟨[], (List.append_nil _).symm⟩

/-- The traversal state only grows: both store tables and both visited
sets are extended, never rewritten. -/
def Grows (s t : BuildState) : Prop :=
  (∃ a, t.db.entities = s.db.entities ++ a) ∧
  (∃ b, t.db.edges = s.db.edges ++ b) ∧
  (∃ c, t.visited.charities = s.visited.charities ++ c) ∧
  (∃ l, t.visited.companies = s.visited.companies ++ l)

theorem grows_refl (s : BuildState) : Grows s s :=
  ⟨⟨[], (List.append_nil _).symm⟩, ⟨[], (List.append_nil _).symm⟩,
   ⟨[], (List.append_nil _).symm⟩, ⟨[], (List.append_nil _).symm⟩⟩

theorem grows_trans {s t u : BuildState} (h1 : Grows s t) (h2 : Grows t u) : Grows s u :=
  ⟨pref_trans h2.1 h1.1, pref_trans h2.2.1 h1.2.1,
   pref_trans h2.2.2.1 h1.2.2.1, pref_trans h2.2.2.2 h1.2.2.2⟩

theorem grows_of_db {s t : BuildState} (h1 : ∃ a, t.db.entities = s.db.entities ++ a)
    (h2 : ∃ b, t.db.edges = s.db.edges ++ b) (h3 : t.visited = s.visited) : Grows s t :=
  ⟨h1, h2, ⟨[], by rw [h3]; exact (List.append_nil _).symm⟩,
   ⟨[], by rw [h3]; exact (List.append_nil _).symm⟩⟩

/-- The trustee section only extends the state. -/
theorem trustee_loop_grows (env : TreeEnv) (parent : Entity) (d : Nat) :
    ∀ (ts : List TrusteeParsed) (s : BuildState), Grows s (trustee_loop env parent d s ts).1 := by
  intro ts
  induction ts with
  | nil => exact fun s => grows_refl s
  | cons t rest ih =>
    intro s
    rw [trustee_loop]
    rcases htc : trustee_candidate s.visited parent (t.name.getD "")
        (env.search_charities (t.name.getD "") 3) with _ | ⟨X, nname⟩
    · exact ih s
    · dsimp only
      have hdbp := gocr_db env s.db parent X nname d
      rcases hrel : get_or_create_related_charity env s.db parent X nname d with ⟨relOpt, reldb⟩
      rw [hrel] at hdbp
      rcases relOpt with _ | rel
      · dsimp only
        refine grows_trans (t := { db := reldb
                                   visited := { s.visited with
                                     charities := s.visited.charities ++ [X] } }) ?_ (ih _)
        exact ⟨hdbp.1, ⟨[], hdbp.2.trans (List.append_nil _).symm⟩, ⟨[X], rfl⟩,
               ⟨[], (List.append_nil _).symm⟩⟩
      · dsimp only
        have hcoe := create_ownership_edges reldb parent.id rel.id "trustee_charity"
          "charity_commission" (some ("Trustee: " ++ t.name.getD "")) none
        refine grows_trans (t := { db := (create_ownership reldb parent.id rel.id "trustee_charity"
                                     "charity_commission" (some ("Trustee: " ++ t.name.getD "")) none).2
                                   visited := { s.visited with
                                     charities := s.visited.charities ++ [X] } }) ?_ (ih _)
        refine ⟨⟨hdbp.1.choose, ?_⟩, pref_trans hcoe ⟨[], hdbp.2.trans (List.append_nil _).symm⟩,
                ⟨[X], rfl⟩, ⟨[], (List.append_nil _).symm⟩⟩
        show (create_ownership reldb parent.id rel.id "trustee_charity"
          "charity_commission" (some ("Trustee: " ++ t.name.getD "")) none).2.entities
            = s.db.entities ++ hdbp.1.choose
        rw [create_ownership_entities]
        exact hdbp.1.choose_spec

/-- The subsidiary loop only extends the state (given that the recursion
it is handed does). -/
theorem subs_loop_grows (recurse : BuildState → Entity → BuildState × List TreeNode × Nat)
    (parent : Entity) (d : Nat)
    (Hrec : ∀ s c, Grows s (recurse s c).1) :
    ∀ (subs : List SubsidiaryRaw) (s : BuildState),
      Grows s (subs_loop recurse parent d s subs).1 := by
  intro subs
  induction subs with
  | nil => exact fun s => grows_refl s
  | cons sub rest ih =>
    intro s
    rw [subs_loop]
    by_cases hskip : (optTruthy sub.companyNumber
        && s.visited.companies.contains (sub.companyNumber.getD "")) = true
    · rw [if_pos hskip]
      exact ih s
    · rw [if_neg hskip]
      dsimp only
      set S1 := if optTruthy sub.companyNumber = true then
          { s with visited :=
            { s.visited with companies := s.visited.companies ++ [sub.companyNumber.getD ""] } }
        else s with hS1
      have hgS1 : Grows s S1 := by
        rw [hS1]
        split
        · exact ⟨⟨[], (List.append_nil _).symm⟩, ⟨[], (List.append_nil _).symm⟩,
                 ⟨[], (List.append_nil _).symm⟩, ⟨[sub.companyNumber.getD ""], rfl⟩⟩
        · exact grows_refl s
      have hdbp := goc_sub_db S1.db parent (sub.subsidiaryName.getD "Unknown") sub.companyNumber d
      rcases hgc : get_or_create_subsidiary_entity S1.db parent
          (sub.subsidiaryName.getD "Unknown") sub.companyNumber d with ⟨child, gdb⟩
      rw [hgc] at hdbp
      dsimp only
      have hcoe := create_ownership_edges gdb parent.id child.id "subsidiary" "charity_commission"
        none none
      have hcoent := create_ownership_entities gdb parent.id child.id "subsidiary"
        "charity_commission" none none
      set S2 : BuildState := { S1 with
        db := (create_ownership gdb parent.id child.id "subsidiary" "charity_commission" none none).2 }
        with hS2
      have hgS2 : Grows S1 S2 := by
        refine grows_of_db ⟨hdbp.1.choose, ?_⟩ (pref_trans hcoe ⟨[], hdbp.2.trans (List.append_nil _).symm⟩) rfl
        show (create_ownership gdb parent.id child.id "subsidiary" "charity_commission" none none).2.entities
            = S1.db.entities ++ hdbp.1.choose
        rw [hcoent]
        exact hdbp.1.choose_spec
      by_cases hch : optTruthy child.charity_number = true
      · rw [if_pos hch]
        exact grows_trans hgS1 (grows_trans hgS2 (grows_trans (Hrec S2 child) (ih _)))
      · rw [if_neg hch]
        exact grows_trans hgS1 (grows_trans hgS2 (ih _))

/-- The downward traversal only extends the state. -/
theorem build_downward_grows (env : TreeEnv) (D : Nat) :
    ∀ (fuel : Nat) (s : BuildState) (parent : Entity) (d : Nat),
    Grows s (build_downward_tree env D fuel s parent d).1 := by
  intro fuel
  induction fuel with
  | zero => exact fun s parent d => grows_refl s
  | succ fuel ih =>
    intro s parent d
    rw [build_downward_tree]
    by_cases hgd : d > D
    · rw [if_pos hgd]
      exact grows_refl s
    · rw [if_neg hgd]
      dsimp only
      by_cases hpc : optTruthy parent.charity_number = true
      · rw [if_pos hpc]
        have hsub := subs_loop_grows
          (fun s' child => build_downward_tree env D fuel s' child (d + 1)) parent d
          (fun s' c => ih s' c (d + 1))
          (env.get_charity_subsidiaries (parent.charity_number.getD "")) s
        rcases hed : parent.enriched_data with _ | ed
        · exact hsub
        · exact grows_trans hsub (trustee_loop_grows env parent d ed.trustees _)
      · rw [if_neg hpc]
        rcases hed : parent.enriched_data with _ | ed
        · exact grows_refl s
        · exact trustee_loop_grows env parent d ed.trustees s

/-- Coverage of a row list by a state: every row is already stored there,
or carries no charity number the state has already visited. -/
def Covered (es : List Entity) (t : BuildState) : Prop :=
  ∀ e ∈ es, e ∈ t.db.entities ∨
    ∀ n, e.charity_number = some n → n ∉ t.visited.charities

theorem covered_trans {s m : BuildState} {es : List Entity}
    (h1 : Covered es m) (h2 : Covered m.db.entities s)
    (hg : ∃ c, m.visited.charities = s.visited.charities ++ c) :
    Covered es s := by
  intro e he
  rcases h1 e he with hm | hfr
  · exact h2 e hm
  · right
    intro n hn hmem
    obtain ⟨c, hc⟩ := hg
    exact hfr n hn (by rw [hc]; exact List.mem_append.mpr (Or.inl hmem))

/-- The charity picked by the inner trustee search loop is never one the
traversal has already visited. -/
theorem trustee_candidate_spec (v : Visited) (parent : Entity) (tn : String) :
    ∀ (cs : List RawCharity) (num nm : String),
    trustee_candidate v parent tn cs = some (num, nm) →
      v.charities.contains num = false := by
  intro cs
  induction cs with
  | nil =>
    intro num nm h
    cases h
  | cons ch rest ih =>
    intro num nm h
    rw [trustee_candidate] at h
    dsimp only at h
    by_cases h1 : (!optTruthy (pyOrStr ch.charityNumber ch.registeredCharityNumber)
        || v.charities.contains ((pyOrStr ch.charityNumber ch.registeredCharityNumber).getD "")) = true
    · rw [if_pos h1] at h
      exact ih num nm h
    · rw [if_neg h1] at h
      by_cases h2 : ((pyOrStr ch.charityNumber ch.registeredCharityNumber) == parent.charity_number) = true
      · rw [if_pos h2] at h
        exact ih num nm h
      · rw [if_neg h2] at h
        by_cases h3 : (((pyOrStr ch.charityName ch.name).getD "").toLower == tn.toLower) = true
        · rw [if_pos h3] at h
          simp only [Option.some.injEq, Prod.mk.injEq] at h
          have h1f : (!optTruthy (pyOrStr ch.charityNumber ch.registeredCharityNumber)
              || v.charities.contains ((pyOrStr ch.charityNumber ch.registeredCharityNumber).getD "")) = false :=
            Bool.eq_false_iff.mpr h1
          rcases h with ⟨hnum, _⟩
          rw [← hnum]
          exact (Bool.or_eq_false_iff.mp h1f).2
        · rw [if_neg h3] at h
          exact ih num nm h

/-- Entities added by the trustee section are fresh: each carries a charity
number the starting state had not visited. -/
theorem trustee_loop_fresh (env : TreeEnv) (parent : Entity) (d : Nat) :
    ∀ (ts : List TrusteeParsed) (s : BuildState),
    Covered ((trustee_loop env parent d s ts).1.db.entities) s := by
  intro ts
  induction ts with
  | nil => exact fun s e he => Or.inl he
  | cons t rest ih =>
    intro s
    rw [trustee_loop]
    rcases htc : trustee_candidate s.visited parent (t.name.getD "")
        (env.search_charities (t.name.getD "") 3) with _ | ⟨X, nname⟩
    · exact ih s
    · dsimp only
      have hX : X ∉ s.visited.charities :=
        not_mem_of_contains_false (trustee_candidate_spec s.visited parent (t.name.getD "") _ X nname htc)
      have hmem := fun e he => mem_get_or_create_related env s.db parent X nname d e he
      rcases hrel : get_or_create_related_charity env s.db parent X nname d with ⟨relOpt, reldb⟩
      rw [hrel] at hmem
      rcases relOpt with _ | rel
      · dsimp only
        intro e he
        rcases ih _ e he with hm | hfr
        · rcases hmem e hm with hm2 | hm2
          · exact Or.inl hm2
          · right
            intro n hn
            rw [hm2.2.2.2.1] at hn
            cases hn
            exact hX
        · right
          intro n hn hmemn
          exact hfr n hn (List.mem_append.mpr (Or.inl hmemn))
      · dsimp only
        intro e he
        rcases ih _ e he with hm | hfr
        · rw [create_ownership_entities] at hm
          rcases hmem e hm with hm2 | hm2
          · exact Or.inl hm2
          · right
            intro n hn
            rw [hm2.2.2.2.1] at hn
            cases hn
            exact hX
        · right
          intro n hn hmemn
          exact hfr n hn (List.mem_append.mpr (Or.inl hmemn))

/-- Entities added by the subsidiary loop are fresh in the same sense
(newly created subsidiary records carry no charity number at all). -/
theorem subs_loop_fresh (recurse : BuildState → Entity → BuildState × List TreeNode × Nat)
    (parent : Entity) (d : Nat)
    (Hrec : ∀ s c, Covered ((recurse s c).1.db.entities) s)
    (Hgrows : ∀ s c, Grows s (recurse s c).1) :
    ∀ (subs : List SubsidiaryRaw) (s : BuildState),
    Covered ((subs_loop recurse parent d s subs).1.db.entities) s := by
  intro subs
  induction subs with
  | nil => exact fun s e he => Or.inl he
  | cons sub rest ih =>
    intro s
    rw [subs_loop]
    by_cases hskip : (optTruthy sub.companyNumber
        && s.visited.companies.contains (sub.companyNumber.getD "")) = true
    · rw [if_pos hskip]
      exact ih s
    · rw [if_neg hskip]
      dsimp only
      set S1 := if optTruthy sub.companyNumber = true then
          { s with visited :=
            { s.visited with companies := s.visited.companies ++ [sub.companyNumber.getD ""] } }
        else s with hS1
      have hchar1 : S1.visited.charities = s.visited.charities := by
        rw [hS1]
        split
        · rfl
        · rfl
      have hdb1 : S1.db = s.db := by
        rw [hS1]
        split
        · rfl
        · rfl
      have hmem := fun e he => mem_get_or_create_subsidiary S1.db parent
        (sub.subsidiaryName.getD "Unknown") sub.companyNumber d e he
      rcases hgc : get_or_create_subsidiary_entity S1.db parent
          (sub.subsidiaryName.getD "Unknown") sub.companyNumber d with ⟨child, gdb⟩
      rw [hgc] at hmem
      dsimp only
      have hS2 : Covered ((create_ownership gdb parent.id child.id "subsidiary"
          "charity_commission" none none).2.entities) s := by
        intro e he
        rw [create_ownership_entities] at he
        rcases hmem e he with hm | hm
        · rw [hdb1] at hm
          exact Or.inl hm
        · right
          intro n hn
          rw [hm.2.2.2.2.1] at hn
          cases hn
      have hchar2 : ({ S1 with db := (create_ownership gdb parent.id child.id "subsidiary"
          "charity_commission" none none).2 } : BuildState).visited.charities
            = s.visited.charities ++ [] := by
        rw [List.append_nil]
        exact hchar1
      by_cases hch : optTruthy child.charity_number = true
      · rw [if_pos hch]
        refine covered_trans (covered_trans (ih _) (Hrec _ child) ?_) hS2 ⟨[], hchar2⟩
        exact (Hgrows _ child).2.2.1
      · rw [if_neg hch]
        exact covered_trans (ih _) hS2 ⟨[], hchar2⟩

/-- Entities added by the downward traversal are fresh. -/
theorem build_downward_fresh (env : TreeEnv) (D : Nat) :
    ∀ (fuel : Nat) (s : BuildState) (parent : Entity) (d : Nat),
    Covered ((build_downward_tree env D fuel s parent d).1.db.entities) s := by
  intro fuel
  induction fuel with
  | zero => exact fun s parent d e he => Or.inl he
  | succ fuel ih =>
    intro s parent d
    rw [build_downward_tree]
    by_cases hgd : d > D
    · rw [if_pos hgd]
      exact fun e he => Or.inl he
    · rw [if_neg hgd]
      dsimp only
      by_cases hpc : optTruthy parent.charity_number = true
      · rw [if_pos hpc]
        have hsubf := subs_loop_fresh
          (fun s' child => build_downward_tree env D fuel s' child (d + 1)) parent d
          (fun s' c => ih s' c (d + 1)) (fun s' c => build_downward_grows env D fuel s' c (d + 1))
          (env.get_charity_subsidiaries (parent.charity_number.getD "")) s
        have hsubg := subs_loop_grows
          (fun s' child => build_downward_tree env D fuel s' child (d + 1)) parent d
          (fun s' c => build_downward_grows env D fuel s' c (d + 1))
          (env.get_charity_subsidiaries (parent.charity_number.getD "")) s
        rcases hed : parent.enriched_data with _ | ed
        · exact hsubf
        · exact covered_trans (trustee_loop_fresh env parent d ed.trustees _) hsubf hsubg.2.2.1
      · rw [if_neg hpc]
        rcases hed : parent.enriched_data with _ | ed
        · exact fun e he => Or.inl he
        · exact trustee_loop_fresh env parent d ed.trustees s

/-- Replaying `_create_ownership` against a store whose edge table extends
the first call's output finds the first call's edge and writes nothing. -/
theorem create_ownership_replay (db db2 : BuildDb) (a b : Nat) (t src : String)
    (dsc : Option String) (pct : Option Rat)
    (h : ∃ w, db2.edges = (create_ownership db a b t src dsc pct).2.edges ++ w) :
    create_ownership db2 a b t src dsc pct
      = ((create_ownership db a b t src dsc pct).1, db2) := by
  rcases create_ownership_cases db a b t src dsc pct with ⟨ed, hf, heq⟩ | ⟨ed, heq, hf, ha, hb⟩
  · rw [heq] at h ⊢
    obtain ⟨w, hW⟩ := h
    have h2 : db2.edges.find? (fun o => o.owner_id == a && o.owned_id == b) = some ed := by
      rw [hW]
      exact find?_append_some _ hf
    unfold create_ownership
    rw [h2]
  · rw [heq] at h ⊢
    obtain ⟨w, hW⟩ := h
    have hW2 : db2.edges = db.edges ++ (ed :: w) := by
      rw [hW]
      exact List.append_assoc db.edges [ed] w
    have h2 : db2.edges.find? (fun o => o.owner_id == a && o.owned_id == b) = some ed := by
      rw [hW2]
      refine find?_append_cons _ hf ?_
      rw [Bool.and_eq_true]
      exact ⟨beq_iff_eq.mpr ha, beq_iff_eq.mpr hb⟩
    unfold create_ownership
    rw [h2]

/-- Replaying `_get_or_create_subsidiary_entity` (truthy company number)
against an extending store returns the first call's record, writes
nothing, and ignores the new name and level arguments. -/
theorem goc_sub_replay (db db2 : BuildDb) (parent : Entity) (nm nm2 : String)
    (cn : Option String) (lvl lvl2 : Nat) (hcn : optTruthy cn = true)
    (h : ∃ w, db2.entities = (get_or_create_subsidiary_entity db parent nm cn lvl).2.entities ++ w) :
    get_or_create_subsidiary_entity db2 parent nm2 cn lvl2
      = ((get_or_create_subsidiary_entity db parent nm cn lvl).1, db2) := by
  rcases goc_sub_cases db parent nm cn lvl hcn with ⟨e, hf, heq⟩ | ⟨c, heq, hf, hcb, hcc, _⟩
  · rw [heq] at h ⊢
    obtain ⟨w, hW⟩ := h
    have h2 : db2.entities.find? (fun x => x.batch_id == parent.batch_id && x.company_number == cn) = some e := by
      rw [hW]
      exact find?_append_some _ hf
    unfold get_or_create_subsidiary_entity
    rw [if_pos hcn, h2]
  · rw [heq] at h ⊢
    obtain ⟨w, hW⟩ := h
    have hW2 : db2.entities = db.entities ++ (c :: w) := by
      rw [hW]
      exact List.append_assoc db.entities [c] w
    have h2 : db2.entities.find? (fun x => x.batch_id == parent.batch_id && x.company_number == cn) = some c := by
      rw [hW2]
      refine find?_append_cons _ hf ?_
      rw [Bool.and_eq_true]
      exact ⟨beq_iff_eq.mpr hcb, beq_iff_eq.mpr hcc⟩
    unfold get_or_create_subsidiary_entity
    rw [if_pos hcn, h2]

/-- Replay of `_get_or_create_related_charity` when the first call found a
stored row. -/
theorem gocr_replay_found (env : TreeEnv) (db db2 : BuildDb) (parent : Entity)
    (chn nm2 : String) (lvl2 : Nat) (e : Entity)
    (hf : db.entities.find? (fun x => x.batch_id == parent.batch_id && x.charity_number == some chn) = some e)
    (h : ∃ w, db2.entities = db.entities ++ w) :
    get_or_create_related_charity env db2 parent chn nm2 lvl2 = (some e, db2) := by
  obtain ⟨w, hW⟩ := h
  have h2 : db2.entities.find? (fun x => x.batch_id == parent.batch_id && x.charity_number == some chn) = some e := by
    rw [hW]
    exact find?_append_some _ hf
  unfold get_or_create_related_charity
  rw [h2]

/-- Replay of `_get_or_create_related_charity` when the details fetch finds
nothing and the extended store still has no row with the key. -/
theorem gocr_replay_none (env : TreeEnv) (db2 : BuildDb) (parent : Entity)
    (chn nm2 : String) (lvl2 : Nat)
    (h2 : db2.entities.find? (fun x => x.batch_id == parent.batch_id && x.charity_number == some chn) = none)
    (hd : env.get_full_charity_details chn = none) :
    get_or_create_related_charity env db2 parent chn nm2 lvl2 = (none, db2) := by
  unfold get_or_create_related_charity
  rw [h2, hd]

/-- Replay of `_get_or_create_related_charity` when the first call created
the row: the created row is the first key match of the extended store. -/
theorem gocr_replay_created (env : TreeEnv) (db db2 : BuildDb) (parent : Entity)
    (chn nm2 : String) (lvl2 : Nat) (c : Entity)
    (hf : db.entities.find? (fun x => x.batch_id == parent.batch_id && x.charity_number == some chn) = none)
    (hcb : c.batch_id = parent.batch_id) (hcc : c.charity_number = some chn)
    (h : ∃ w, db2.entities = db.entities ++ (c :: w)) :
    get_or_create_related_charity env db2 parent chn nm2 lvl2 = (some c, db2) := by
  obtain ⟨w, hW⟩ := h
  have h2 : db2.entities.find? (fun x => x.batch_id == parent.batch_id && x.charity_number == some chn) = some c := by
    rw [hW]
    refine find?_append_cons _ hf ?_
    rw [Bool.and_eq_true]
    exact ⟨beq_iff_eq.mpr hcb, beq_iff_eq.mpr hcc⟩
  unfold get_or_create_related_charity
  rw [h2]

/-- Replaying the trustee section against a state whose store extends the
first run's output (all extension rows fresh or visible to the first run)
and whose visited sets match writes nothing and re-visits the same
charities. -/
theorem trustee_loop_stable (env : TreeEnv) (parent : Entity) (d : Nat) :
    ∀ (ts : List TrusteeParsed) (s s2 : BuildState),
    s2.visited = s.visited →
    (∃ ew, s2.db.entities = (trustee_loop env parent d s ts).1.db.entities ++ ew) →
    (∃ fw, s2.db.edges = (trustee_loop env parent d s ts).1.db.edges ++ fw) →
    Covered s2.db.entities (trustee_loop env parent d s ts).1 →
    (trustee_loop env parent d s2 ts).1.db = s2.db ∧
    (trustee_loop env parent d s2 ts).1.visited = (trustee_loop env parent d s ts).1.visited := by
  intro ts
  induction ts with
  | nil =>
    intro s s2 hv _ _ _
    exact ⟨rfl, hv⟩
  | cons t rest ih =>
    intro s s2 hv hE hF hC
    have hg1 := trustee_loop_grows env parent d (t :: rest) s
    have hpreE := pref_trans hE hg1.1
    simp only [trustee_loop] at hE hF hC ⊢
    rw [hv]
    rcases htc : trustee_candidate s.visited parent (t.name.getD "")
        (env.search_charities (t.name.getD "") 3) with _ | ⟨X, nname⟩
    · rw [htc] at hE hF hC
      dsimp only at hE hF hC
      exact ih s s2 hv hE hF hC
    · rw [htc] at hE hF hC
      dsimp only at hE hF hC ⊢
      have hX : X ∉ s.visited.charities :=
        not_mem_of_contains_false
          (trustee_candidate_spec s.visited parent (t.name.getD "") _ X nname htc)
      rcases gocr_cases env s.db parent X nname d with
        ⟨e0, hf1, heq1⟩ | ⟨hf1, hd1, heq1⟩ | ⟨c, heq1, hf1, hcb, hcc⟩
      · rw [heq1] at hE hF hC ⊢
        dsimp only at hE hF hC ⊢
        have heq2 : get_or_create_related_charity env s2.db parent X nname d = (some e0, s2.db) :=
          gocr_replay_found env s.db s2.db parent X nname d e0 hf1 hpreE
        rw [heq2]
        dsimp only
        have hredge : ∃ w, s2.db.edges = (create_ownership s.db parent.id e0.id "trustee_charity"
            "charity_commission" (some ("Trustee: " ++ t.name.getD "")) none).2.edges ++ w :=
          pref_trans hF (trustee_loop_grows env parent d rest _).2.1
        have heqe2 := create_ownership_replay s.db s2.db parent.id e0.id "trustee_charity"
          "charity_commission" (some ("Trustee: " ++ t.name.getD "")) none hredge
        rw [heqe2]
        dsimp only
        exact ih _ _ rfl hE hF hC
      · rw [heq1] at hE hF hC ⊢
        dsimp only at hE hF hC ⊢
        have h2fn : s2.db.entities.find?
            (fun x => x.batch_id == parent.batch_id && x.charity_number == some X) = none := by
          rw [List.find?_eq_none]
          intro e' he' hp
          have hp0 := hp
          rw [Bool.and_eq_true] at hp
          have hcn' : e'.charity_number = some X := beq_iff_eq.mp hp.2
          rcases hC e' he' with hm | hfr
          · rcases trustee_loop_fresh env parent d rest _ e' hm with hm2 | hm2
            · exact (List.find?_eq_none.mp hf1 e' hm2) hp0
            · exact hm2 X hcn' (List.mem_append.mpr (Or.inr (List.mem_singleton.mpr rfl)))
          · refine hfr X hcn' ?_
            obtain ⟨cc, hcc2⟩ := (trustee_loop_grows env parent d rest _).2.2.1
            rw [hcc2]
            exact List.mem_append.mpr
              (Or.inl (List.mem_append.mpr (Or.inr (List.mem_singleton.mpr rfl))))
        have heq2 : get_or_create_related_charity env s2.db parent X nname d = (none, s2.db) :=
          gocr_replay_none env s2.db parent X nname d h2fn hd1
        rw [heq2]
        dsimp only
        exact ih _ _ rfl hE hF hC
      · rw [heq1] at hE hF hC ⊢
        dsimp only at hE hF hC ⊢
        have hpack0 : ∃ w, s2.db.entities = (s.db.entities ++ [c]) ++ w := by
          refine pref_trans (pref_trans hE (trustee_loop_grows env parent d rest _).1) ⟨[], ?_⟩
          rw [create_ownership_entities]
          exact (List.append_nil _).symm
        have hpack1 : ∃ w, s2.db.entities = s.db.entities ++ (c :: w) := by
          obtain ⟨w, hW⟩ := hpack0
          refine ⟨w, ?_⟩
          rw [hW]
          exact List.append_assoc s.db.entities [c] w
        have heq2 : get_or_create_related_charity env s2.db parent X nname d = (some c, s2.db) :=
          gocr_replay_created env s.db s2.db parent X nname d c hf1 hcb hcc hpack1
        rw [heq2]
        dsimp only
        have hredge : ∃ w, s2.db.edges = (create_ownership
            { s.db with entities := s.db.entities ++ [c], next_entity_id := s.db.next_entity_id + 1 }
            parent.id c.id "trustee_charity" "charity_commission"
            (some ("Trustee: " ++ t.name.getD "")) none).2.edges ++ w :=
          pref_trans hF (trustee_loop_grows env parent d rest _).2.1
        have heqe2 := create_ownership_replay _ s2.db parent.id c.id "trustee_charity"
          "charity_commission" (some ("Trustee: " ++ t.name.getD "")) none hredge
        rw [heqe2]
        dsimp only
        exact ih _ _ rfl hE hF hC

/-- Replaying the subsidiary loop (every subsidiary carrying a truthy
company number) against a state whose store extends the first run's output
writes nothing and re-visits the same numbers. -/
theorem subs_loop_stable (recurse : BuildState → Entity → BuildState × List TreeNode × Nat)
    (parent : Entity) (d : Nat)
    (Hgrows : ∀ s c, Grows s (recurse s c).1)
    (Hfresh : ∀ s c, Covered ((recurse s c).1.db.entities) s)
    (Hstable : ∀ s c s2, s2.visited = s.visited →
      (∃ ew, s2.db.entities = (recurse s c).1.db.entities ++ ew) →
      (∃ fw, s2.db.edges = (recurse s c).1.db.edges ++ fw) →
      Covered s2.db.entities (recurse s c).1 →
      (recurse s2 c).1.db = s2.db ∧ (recurse s2 c).1.visited = (recurse s c).1.visited) :
    ∀ (subs : List SubsidiaryRaw), (∀ x ∈ subs, optTruthy x.companyNumber = true) →
    ∀ (s s2 : BuildState), s2.visited = s.visited →
    (∃ ew, s2.db.entities = (subs_loop recurse parent d s subs).1.db.entities ++ ew) →
    (∃ fw, s2.db.edges = (subs_loop recurse parent d s subs).1.db.edges ++ fw) →
    Covered s2.db.entities (subs_loop recurse parent d s subs).1 →
    (subs_loop recurse parent d s2 subs).1.db = s2.db ∧
    (subs_loop recurse parent d s2 subs).1.visited = (subs_loop recurse parent d s subs).1.visited := by
  intro subs
  induction subs with
  | nil =>
    intro _ s s2 hv _ _ _
    exact ⟨rfl, hv⟩
  | cons sub rest ih =>
    intro hsubs s s2 hv hE hF hC
    have hcn : optTruthy sub.companyNumber = true := hsubs sub (List.mem_cons_self _ _)
    have hsubs' : ∀ x ∈ rest, optTruthy x.companyNumber = true :=
      fun x hx => hsubs x (List.mem_cons_of_mem _ hx)
    have hg1 := subs_loop_grows recurse parent d Hgrows (sub :: rest) s
    have hpreE := pref_trans hE hg1.1
    simp only [subs_loop] at hE hF hC ⊢
    rw [hv]
    by_cases hskip : (optTruthy sub.companyNumber
        && s.visited.companies.contains (sub.companyNumber.getD "")) = true
    · simp only [if_pos hskip] at hE hF hC ⊢
      exact ih hsubs' s s2 hv hE hF hC
    · simp only [if_neg hskip, if_pos hcn] at hE hF hC ⊢
      rcases goc_sub_cases s.db parent (sub.subsidiaryName.getD "Unknown") sub.companyNumber d hcn
        with ⟨e, hf1, heq1⟩ | ⟨c, heq1, hf1, hcb, hcc, hccn⟩
      · rw [heq1] at hE hF hC ⊢
        dsimp only at hE hF hC ⊢
        have hpack1 : ∃ w, s2.db.entities = (get_or_create_subsidiary_entity s.db parent
            (sub.subsidiaryName.getD "Unknown") sub.companyNumber d).2.entities ++ w := by
          rw [heq1]
          exact hpreE
        have heq2 := goc_sub_replay s.db s2.db parent (sub.subsidiaryName.getD "Unknown")
          (sub.subsidiaryName.getD "Unknown") sub.companyNumber d d hcn hpack1
        rw [heq1] at heq2
        dsimp only at heq2
        rw [heq2]
        dsimp only
        have hpackF : ∃ w, s2.db.edges = (create_ownership s.db parent.id e.id "subsidiary"
            "charity_commission" none none).2.edges ++ w := by
          by_cases hch : optTruthy e.charity_number = true
          · simp only [if_pos hch] at hF
            exact pref_trans (pref_trans hF (subs_loop_grows recurse parent d Hgrows rest _).2.1)
              (Hgrows _ e).2.1
          · simp only [if_neg hch] at hF
            exact pref_trans hF (subs_loop_grows recurse parent d Hgrows rest _).2.1
        have heqe2 := create_ownership_replay s.db s2.db parent.id e.id "subsidiary"
          "charity_commission" none none hpackF
        rw [heqe2]
        dsimp only
        by_cases hch : optTruthy e.charity_number = true
        · simp only [if_pos hch] at hE hF hC ⊢
          have hrec := Hstable
            ({ db := (create_ownership s.db parent.id e.id "subsidiary" "charity_commission"
                 none none).2
               visited := { charities := s.visited.charities
                            companies := s.visited.companies ++ [sub.companyNumber.getD ""] } }) e
            ({ db := s2.db
               visited := { charities := s.visited.charities
                            companies := s.visited.companies ++ [sub.companyNumber.getD ""] } }) rfl
            (pref_trans hE (subs_loop_grows recurse parent d Hgrows rest _).1)
            (pref_trans hF (subs_loop_grows recurse parent d Hgrows rest _).2.1)
            (covered_trans hC (subs_loop_fresh recurse parent d Hfresh Hgrows rest _)
              (subs_loop_grows recurse parent d Hgrows rest _).2.2.1)
          obtain ⟨hrdb, hrvis⟩ := hrec
          have hih := ih hsubs' _ _ hrvis
            ⟨hE.choose, by rw [hrdb]; exact hE.choose_spec⟩
            ⟨hF.choose, by rw [hrdb]; exact hF.choose_spec⟩
            (by rw [hrdb]; exact hC)
          exact ⟨hih.1.trans hrdb, hih.2⟩
        · simp only [if_neg hch] at hE hF hC ⊢
          exact ih hsubs' _ _ rfl hE hF hC
      · rw [heq1] at hE hF hC ⊢
        dsimp only at hE hF hC ⊢
        have hchf : ¬ (optTruthy c.charity_number = true) := by
          rw [hccn]
          decide
        simp only [if_neg hchf] at hE hF hC ⊢
        have hpack1 : ∃ w, s2.db.entities = (get_or_create_subsidiary_entity s.db parent
            (sub.subsidiaryName.getD "Unknown") sub.companyNumber d).2.entities ++ w := by
          rw [heq1]
          obtain ⟨w, hW⟩ := pref_trans hE (subs_loop_grows recurse parent d Hgrows rest _).1
          rw [create_ownership_entities] at hW
          exact ⟨w, hW⟩
        have heq2 := goc_sub_replay s.db s2.db parent (sub.subsidiaryName.getD "Unknown")
          (sub.subsidiaryName.getD "Unknown") sub.companyNumber d d hcn hpack1
        rw [heq1] at heq2
        dsimp only at heq2
        rw [heq2]
        dsimp only
        simp only [if_neg hchf]
        have hpackF : ∃ w, s2.db.edges = (create_ownership
            { s.db with entities := s.db.entities ++ [c], next_entity_id := s.db.next_entity_id + 1 }
            parent.id c.id "subsidiary" "charity_commission" none none).2.edges ++ w :=
          pref_trans hF (subs_loop_grows recurse parent d Hgrows rest _).2.1
        have heqe2 := create_ownership_replay _ s2.db parent.id c.id "subsidiary"
          "charity_commission" none none hpackF
        rw [heqe2]
        dsimp only
        exact ih hsubs' _ _ rfl hE hF hC

/-- Replaying the downward traversal (every registry subsidiary carrying a
truthy company number) against a state whose store extends the first run's
output writes nothing and re-visits the same numbers. -/
theorem build_downward_stable (env : TreeEnv)
    (Henv : ∀ cn, ∀ x ∈ env.get_charity_subsidiaries cn, optTruthy x.companyNumber = true)
    (D : Nat) :
    ∀ (fuel : Nat) (parent : Entity) (d : Nat) (s s2 : BuildState),
    s2.visited = s.visited →
    (∃ ew, s2.db.entities = (build_downward_tree env D fuel s parent d).1.db.entities ++ ew) →
    (∃ fw, s2.db.edges = (build_downward_tree env D fuel s parent d).1.db.edges ++ fw) →
    Covered s2.db.entities (build_downward_tree env D fuel s parent d).1 →
    (build_downward_tree env D fuel s2 parent d).1.db = s2.db ∧
    (build_downward_tree env D fuel s2 parent d).1.visited
      = (build_downward_tree env D fuel s parent d).1.visited := by
  intro fuel
  induction fuel with
  | zero =>
    intro parent d s s2 hv _ _ _
    exact ⟨rfl, hv⟩
  | succ fuel ih =>
    intro parent d s s2 hv hE hF hC
    simp only [build_downward_tree] at hE hF hC ⊢
    by_cases hgd : d > D
    · simp only [if_pos hgd] at hE hF hC ⊢
      exact ⟨trivial, hv⟩
    · simp only [if_neg hgd] at hE hF hC ⊢
      by_cases hpc : optTruthy parent.charity_number = true
      · simp only [if_pos hpc] at hE hF hC ⊢
        rcases hed : parent.enriched_data with _ | ed
        · rw [hed] at hE hF hC
          dsimp only at hE hF hC
          exact subs_loop_stable _ parent d
            (fun s' c => build_downward_grows env D fuel s' c (d + 1))
            (fun s' c => build_downward_fresh env D fuel s' c (d + 1))
            (fun s' c s2' h1 h2 h3 h4 => ih c (d + 1) s' s2' h1 h2 h3 h4)
            (env.get_charity_subsidiaries (parent.charity_number.getD ""))
            (Henv (parent.charity_number.getD "")) s s2 hv hE hF hC
        · rw [hed] at hE hF hC
          dsimp only at hE hF hC ⊢
          have hsubstable := subs_loop_stable _ parent d
            (fun s' c => build_downward_grows env D fuel s' c (d + 1))
            (fun s' c => build_downward_fresh env D fuel s' c (d + 1))
            (fun s' c s2' h1 h2 h3 h4 => ih c (d + 1) s' s2' h1 h2 h3 h4)
            (env.get_charity_subsidiaries (parent.charity_number.getD ""))
            (Henv (parent.charity_number.getD "")) s s2 hv
            (pref_trans hE (trustee_loop_grows env parent d ed.trustees _).1)
            (pref_trans hF (trustee_loop_grows env parent d ed.trustees _).2.1)
            (covered_trans hC (trustee_loop_fresh env parent d ed.trustees _)
              (trustee_loop_grows env parent d ed.trustees _).2.2.1)
          obtain ⟨hsdb, hsvis⟩ := hsubstable
          have htr := trustee_loop_stable env parent d ed.trustees _ _ hsvis
            ⟨hE.choose, by rw [hsdb]; exact hE.choose_spec⟩
            ⟨hF.choose, by rw [hsdb]; exact hF.choose_spec⟩
            (by rw [hsdb]; exact hC)
          exact ⟨htr.1.trans hsdb, htr.2⟩
      · simp only [if_neg hpc] at hE hF hC ⊢
        rcases hed : parent.enriched_data with _ | ed
        · rw [hed] at hE hF hC
          dsimp only at hE hF hC
          exact ⟨rfl, hv⟩
        · rw [hed] at hE hF hC
          dsimp only at hE hF hC ⊢
          exact trustee_loop_stable env parent d ed.trustees s s2 hv hE hF hC

/-- C4 (amended): tree-building is idempotent **provided every subsidiary
returned by the registry carries a truthy company number** (the unguarded
case is refuted by `claim4_counterexample`): running `build_tree_for_entity`
a second time on the same root with the same registry data and the store
left by the first run changes nothing -- the stored tables after the second
run equal those after the first run, so in particular the edge and entity
counts are unchanged.  Edges are get-or-created by the `(owner, owned)`
pair and child records by company/charity number within the batch. -/
theorem claim4_amended (env : TreeEnv) (db : BuildDb) (entity_id D : Nat) (dir : Direction)
    (db1 db2 : BuildDb) (t1 t2 : TreeResult)
    (Henv : ∀ cn, ∀ x ∈ env.get_charity_subsidiaries cn, optTruthy x.companyNumber = true)
    (h1 : build_tree_for_entity env db entity_id D dir = some (db1, t1))
    (h2 : build_tree_for_entity env db1 entity_id D dir = some (db2, t2)) :
    db2 = db1 ∧ db2.edges.length = db1.edges.length ∧
      db2.entities.length = db1.entities.length := by
  simp only [build_tree_for_entity] at h1 h2
  rcases hfr : db.entities.find? (fun e => e.id == entity_id) with _ | root
  · rw [hfr] at h1
    simp at h1
  · rw [hfr] at h1
    dsimp only at h1
    by_cases hc1 : ((dir == Direction.down || dir == Direction.both)
        && optTruthy root.charity_number) = true
    · simp only [if_pos hc1] at h1
      have hdb1 : (build_downward_tree env D (D + 1)
          { db := db
            visited := { charities := if optTruthy root.charity_number
                           then [root.charity_number.getD ""] else []
                         companies := if optTruthy root.company_number
                           then [root.company_number.getD ""] else [] } } root 1).1.db = db1 := by
        by_cases hc2 : (dir == Direction.up || dir == Direction.both) = true
        · simp only [if_pos hc2] at h1
          simp only [Option.some.injEq, Prod.mk.injEq] at h1
          obtain ⟨hd, -⟩ := h1
          rw [build_upward_db] at hd
          exact hd
        · simp only [if_neg hc2] at h1
          simp only [Option.some.injEq, Prod.mk.injEq] at h1
          exact h1.1
      have hents1 : ∃ w, db1.entities = db.entities ++ w := by
        obtain ⟨a, ha⟩ := (build_downward_grows env D (D + 1)
          { db := db
            visited := { charities := if optTruthy root.charity_number
                           then [root.charity_number.getD ""] else []
                         companies := if optTruthy root.company_number
                           then [root.company_number.getD ""] else [] } } root 1).1
        rw [hdb1] at ha
        exact ⟨a, ha⟩
      have hfr2 : db1.entities.find? (fun e => e.id == entity_id) = some root := by
        obtain ⟨w, hw⟩ := hents1
        rw [hw]
        exact find?_append_some _ hfr
      rw [hfr2] at h2
      dsimp only at h2
      simp only [if_pos hc1] at h2
      have hdb2 : (build_downward_tree env D (D + 1)
          { db := db1
            visited := { charities := if optTruthy root.charity_number
                           then [root.charity_number.getD ""] else []
                         companies := if optTruthy root.company_number
                           then [root.company_number.getD ""] else [] } } root 1).1.db = db2 := by
        by_cases hc2 : (dir == Direction.up || dir == Direction.both) = true
        · simp only [if_pos hc2] at h2
          simp only [Option.some.injEq, Prod.mk.injEq] at h2
          obtain ⟨hd, -⟩ := h2
          rw [build_upward_db] at hd
          exact hd
        · simp only [if_neg hc2] at h2
          simp only [Option.some.injEq, Prod.mk.injEq] at h2
          exact h2.1
      have hstab := build_downward_stable env Henv D (D + 1) root 1
        ({ db := db
           visited := { charities := if optTruthy root.charity_number
                          then [root.charity_number.getD ""] else []
                        companies := if optTruthy root.company_number
                          then [root.company_number.getD ""] else [] } })
        ({ db := db1
           visited := { charities := if optTruthy root.charity_number
                          then [root.charity_number.getD ""] else []
                        companies := if optTruthy root.company_number
                          then [root.company_number.getD ""] else [] } }) rfl
        ⟨[], by rw [hdb1]; exact (List.append_nil _).symm⟩
        ⟨[], by rw [hdb1]; exact (List.append_nil _).symm⟩
        (by
          intro e he
          left
          rw [hdb1]
          exact he)
      have hfinal : db2 = db1 := hdb2.symm.trans hstab.1
      exact ⟨hfinal, by rw [hfinal], by rw [hfinal]⟩
    · simp only [if_neg hc1] at h1
      have hdb1 : db = db1 := by
        by_cases hc2 : (dir == Direction.up || dir == Direction.both) = true
        · simp only [if_pos hc2] at h1
          simp only [Option.some.injEq, Prod.mk.injEq] at h1
          obtain ⟨hd, -⟩ := h1
          rw [build_upward_db] at hd
          exact hd
        · simp only [if_neg hc2] at h1
          simp only [Option.some.injEq, Prod.mk.injEq] at h1
          exact h1.1
      have hfr2 : db1.entities.find? (fun e => e.id == entity_id) = some root := by
        rw [← hdb1]
        exact hfr
      rw [hfr2] at h2
      dsimp only at h2
      simp only [if_neg hc1] at h2
      have hdb2 : db1 = db2 := by
        by_cases hc2 : (dir == Direction.up || dir == Direction.both) = true
        · simp only [if_pos hc2] at h2
          simp only [Option.some.injEq, Prod.mk.injEq] at h2
          obtain ⟨hd, -⟩ := h2
          rw [build_upward_db] at hd
          exact hd
        · simp only [if_neg hc2] at h2
          simp only [Option.some.injEq, Prod.mk.injEq] at h2
          exact h2.1
      have hfinal : db2 = db1 := hdb2.symm
      exact ⟨hfinal, by rw [hfinal], by rw [hfinal]⟩

def w4sub : SubsidiaryRaw := { subsidiaryName := some "Sub Trading Ltd", companyNumber := some "01234567" }

def w4env : TreeEnv :=
  { get_charity_subsidiaries := fun _ => [w4sub]
    search_charities := fun _ _ => []
    get_full_charity_details := fun _ => none }

def w4root : Entity := { id := 0, batch_id := 1, original_name := "Root Charity", charity_number := some "999999" }

def w4db : BuildDb := { entities := [w4root], edges := [], next_entity_id := 1 }

def w4run1 : BuildDb × TreeResult :=
  (build_tree_for_entity w4env w4db 0 2 .down).getD ({}, { root_id := 0 })

def w4run2 : BuildDb × TreeResult :=
  (build_tree_for_entity w4env w4run1.1 0 2 .down).getD ({}, { root_id := 0 })

/-- C4 witness: a root charity with one company-numbered trading subsidiary;
the second run of `build_tree_for_entity` leaves the store of the first run
unchanged. -/
theorem claim4_witness :
    w4run2.1 = w4run1.1 ∧ w4run2.1.edges.length = w4run1.1.edges.length ∧
      w4run2.1.entities.length = w4run1.1.entities.length :=
  claim4_amended w4env w4db 0 2 .down w4run1.1 w4run2.1 w4run1.2 w4run2.2
    (fun cn x hx => by
      have h := List.mem_singleton.mp hx
      rw [h]
      decide)
    rfl rfl

end CCE
